import Mathlib

/-!
Shallow embedding of the structural syntax-tree editing layer of this
repository: the `SyntaxEditor` structural recipes of
`crates/syntax/src/syntax_editor/edits.rs` and the `SyntaxFactory`
constructors of `crates/syntax/src/ast/syntax_factory/constructors.rs`.

Trees are modelled as nodes and tokens carrying a numeric identity (standing
for the pointer identity of the Rust green/red nodes), a kind tag and, for
nodes, an ordered child list; for tokens, their text.  The edit staging
engine (`SyntaxEditor` itself, which is not part of the two source files) is
modelled from the spec, section 4.2: an ordered batch of position-addressed
operations applied in staging order, `Before`/`After` resolving to the
target's sibling slot, `LastChildOf` appending to the target's children.
-/

namespace SynEd

/-- Kind tags for the nodes and tokens the modelled recipes touch, named
after the corresponding variants of the grammar's kind catalog. -/
inductive SyntaxKind where
  | WHITESPACE | COMMA | L_ANGLE | R_ANGLE | L_CURLY | R_CURLY
  | L_PAREN | R_PAREN | L_BRACK | R_BRACK | SEMICOLON | IDENT
  | FN_KW | USE_KW | REF_KW | MUT_KW | LET_KW | COLON | COLON2 | EQ | AMP
  | SOURCE_FILE | FN | NAME | GENERIC_PARAM_LIST | TYPE_PARAM
  | LIFETIME_PARAM | CONST_PARAM | PARAM_LIST | BLOCK_EXPR | STMT_LIST
  | USE | USE_TREE | USE_TREE_LIST | PATH | PATH_TYPE | PATH_EXPR
  | BIN_EXPR | REF_EXPR | LITERAL | IDENT_PAT | LET_STMT | EXPR_STMT
  | GENERIC_ARG_LIST | TYPE_ARG | TOKEN_TREE | TYPE_BOUND_LIST | ERROR
deriving DecidableEq, Repr

/-- A syntax element: a leaf token with its text, or an interior node with
its ordered children.  The numeric `id` models node/token identity, which
is what the editor's position addressing refers to. -/
inductive SyntaxElement where
  | token (id : Nat) (kind : SyntaxKind) (text : String)
  | node (id : Nat) (kind : SyntaxKind) (children : List SyntaxElement)

/-- Identity of an element. -/
def getId : SyntaxElement → Nat
  | .token i _ _ => i
  | .node i _ _ => i

/-- Kind tag of an element. -/
def getKind : SyntaxElement → SyntaxKind
  | .token _ k _ => k
  | .node _ k _ => k

/-- Whether the element is an interior node (as opposed to a token). -/
def isNodeEl : SyntaxElement → Bool
  | .node _ _ _ => true
  | .token _ _ _ => false

/-- Child list of an element (empty for tokens). -/
def childrenOf : SyntaxElement → List SyntaxElement
  | .token _ _ _ => []
  | .node _ _ cs => cs

mutual
/-- Source text covered by an element: concatenation of its tokens' texts. -/
def elText : SyntaxElement → String
  | .token _ _ s => s
  | .node _ _ cs => listText cs

/-- Source text covered by a list of elements. -/
def listText : List SyntaxElement → String
  | [] => ("")
  | c :: cs => elText c ++ listText cs
end

/-- The element is a node of the given kind. -/
def isNodeOfKind (k : SyntaxKind) (e : SyntaxElement) : Bool :=
  match e with
  | .node _ k2 _ => k2 = k
  | .token _ _ _ => false

/-- The element is a token of the given kind. -/
def isTokenOfKind (k : SyntaxKind) (e : SyntaxElement) : Bool :=
  match e with
  | .token _ k2 _ => k2 = k
  | .node _ _ _ => false

/-- First child node of the given kind, as the typed ast accessors do. -/
def firstChildNodeOfKind (k : SyntaxKind) (e : SyntaxElement) : Option SyntaxElement :=
  (childrenOf e).find? (isNodeOfKind k)

/-- First child token of the given kind, as the `x_token()` accessors do. -/
def firstChildTokenOfKind (k : SyntaxKind) (e : SyntaxElement) : Option SyntaxElement :=
  (childrenOf e).find? (isTokenOfKind k)

/-- Sibling element immediately after the element with identity `t` in the
given sibling list: `next_sibling_or_token` seen from the parent. -/
def nextSiblingOrToken (siblings : List SyntaxElement) (t : Nat) : Option SyntaxElement :=
  match siblings with
  | [] => none
  | c :: cs => if getId c = t then cs.head? else nextSiblingOrToken cs t

/-- Sibling element immediately before the element with identity `t`:
`prev_sibling_or_token` seen from the parent. -/
def prevSiblingOrToken (siblings : List SyntaxElement) (t : Nat) : Option SyntaxElement :=
  nextSiblingOrToken siblings.reverse t

/-! ## Position addressing and the edit staging engine

Modelled from the spec: the engine itself (`SyntaxEditor`'s apply pass) is
outside the two source files; spec section 4.2 fixes its semantics.
`Before`/`After` resolve to the target's sibling slot in the tree as it
stands when the operation is applied; operations sharing a target apply in
staging order; `LastChildOf` appends after the target node's last child.
A target absent from the tree leaves it unchanged here (the source treats
that as a fatal contract violation; no modelled recipe produces it). -/

/-- Edit anchor, spec section 3 `Position`. -/
inductive Position where
  | before (target : Nat)
  | after (target : Nat)
  | lastChildOf (target : Nat)
deriving DecidableEq, Repr

/-- Staged edit operation, spec section 3 `Edit Operation`. -/
inductive EditOp where
  | insert (pos : Position) (elem : SyntaxElement)
  | insertAll (pos : Position) (elems : List SyntaxElement)
  | delete (target : Nat)
  | replace (target : Nat) (elem : SyntaxElement)

/-- Identity the operation acts on at sibling level (`Before`/`After`
inserts, deletes and replaces); `none` for `LastChildOf` inserts. -/
def sibTargetOf : EditOp → Option Nat
  | .insert (.before t) _ => some t
  | .insert (.after t) _ => some t
  | .insert (.lastChildOf _) _ => none
  | .insertAll (.before t) _ => some t
  | .insertAll (.after t) _ => some t
  | .insertAll (.lastChildOf _) _ => none
  | .delete t => some t
  | .replace t _ => some t

/-- Identity the operation acts on as a `LastChildOf` append, if any. -/
def lastChildTargetOf : EditOp → Option Nat
  | .insert (.lastChildOf t) _ => some t
  | .insertAll (.lastChildOf t) _ => some t
  | _ => none

/-- Elements a `LastChildOf` operation appends. -/
def appendElems : EditOp → List SyntaxElement
  | .insert _ e => [e]
  | .insertAll _ es => es
  | _ => []

/-- Rewrite of the sibling slot at the operation's resolved target `c`,
with `rest` the following siblings. -/
def sibEditHere (op : EditOp) (c : SyntaxElement) (rest : List SyntaxElement) :
    List SyntaxElement :=
  match op with
  | .insert (.before _) e => e :: c :: rest
  | .insert (.after _) e => c :: e :: rest
  | .insert (.lastChildOf _) _ => c :: rest
  | .insertAll (.before _) es => es ++ c :: rest
  | .insertAll (.after _) es => c :: (es ++ rest)
  | .insertAll (.lastChildOf _) _ => c :: rest
  | .delete _ => rest
  | .replace _ e => e :: rest

mutual
/-- Apply one staged operation to a tree. -/
def applyOp (op : EditOp) : SyntaxElement → SyntaxElement
  | .token i k s => .token i k s
  | .node i k cs =>
    let cs2 := applyOpList op cs
    if lastChildTargetOf op = some i then .node i k (cs2 ++ appendElems op)
    else .node i k cs2

/-- Apply one staged operation inside a sibling list. -/
def applyOpList (op : EditOp) : List SyntaxElement → List SyntaxElement
  | [] => []
  | c :: cs =>
    if sibTargetOf op = some (getId c) then sibEditHere op c cs
    else applyOp op c :: applyOpList op cs
end

/-- Apply a staged batch in staging order (spec section 4.2: operations
sharing a target apply in staging order, one deterministic pass). -/
def applyOps (ops : List EditOp) (root : SyntaxElement) : SyntaxElement :=
  ops.foldl (fun t op => applyOp op t) root

/-! ## Typed accessors used by `edits.rs`

Each mirrors the generated ast accessor of the same name: the first child
node (or token) of the appropriate kind, or a filtered child sequence. -/

/-- A generic parameter node: `GenericParam` casts from these kinds. -/
def isGenericParamNode (e : SyntaxElement) : Bool :=
  isNodeOfKind .TYPE_PARAM e || isNodeOfKind .LIFETIME_PARAM e ||
    isNodeOfKind .CONST_PARAM e

/-- Accessor `Fn::generic_param_list`. -/
def Fn.generic_param_list (f : SyntaxElement) : Option SyntaxElement :=
  firstChildNodeOfKind .GENERIC_PARAM_LIST f

/-- Accessor `Fn::name` (from `HasName`). -/
def Fn.name (f : SyntaxElement) : Option SyntaxElement :=
  firstChildNodeOfKind .NAME f

/-- Accessor `Fn::fn_token`. -/
def Fn.fn_token (f : SyntaxElement) : Option SyntaxElement :=
  firstChildTokenOfKind .FN_KW f

/-- Accessor `Fn::param_list`. -/
def Fn.param_list (f : SyntaxElement) : Option SyntaxElement :=
  firstChildNodeOfKind .PARAM_LIST f

/-- Accessor `GenericParamList::generic_params`. -/
def GenericParamList.generic_params (g : SyntaxElement) : List SyntaxElement :=
  (childrenOf g).filter isGenericParamNode

/-- Accessor `GenericParamList::l_angle_token`. -/
def GenericParamList.l_angle_token (g : SyntaxElement) : Option SyntaxElement :=
  firstChildTokenOfKind .L_ANGLE g

/-- Accessor `GenericParamList::r_angle_token`. -/
def GenericParamList.r_angle_token (g : SyntaxElement) : Option SyntaxElement :=
  firstChildTokenOfKind .R_ANGLE g

/-- Text of `make::token(kind)`: the canonical token text for a kind.
Modelled from the spec: the external `make` layer supplies a one-token
fragment per kind; the separator is a comma, the spacing run one space,
the list delimiters angle brackets. -/
def makeTokenText : SyntaxKind → String
  | .COMMA => (",")
  | .WHITESPACE => (" ")
  | .L_ANGLE => ("<")
  | .R_ANGLE => (">")
  | .L_PAREN => ("(")
  | .R_PAREN => (")")
  | .L_CURLY => ("\x7b")
  | .R_CURLY => ("\x7d")
  | .L_BRACK => ("[")
  | .R_BRACK => ("]")
  | .SEMICOLON => (";")
  | _ => ("")

/-- Model of `make::token`: a fresh token of the given kind.  Fresh
fragments built inside a recipe are never edit targets, so they carry
identity `0`. -/
def makeToken (k : SyntaxKind) : SyntaxElement :=
  .token 0 k (makeTokenText k)

/-! ## `SyntaxEditor::add_generic_param` (edits.rs lines 13-77)

The recipe is modelled as the ordered batch of operations it stages on the
editor; `applyOps` materializes them. -/

/-- Condition of edits.rs lines 25-29: the last generic parameter's
`next_sibling_or_token` (within the parameter list) exists and is a comma. -/
def followedByComma (generic_param_list : SyntaxElement) (t : Nat) : Bool :=
  match nextSiblingOrToken (childrenOf generic_param_list) t with
  | some it => getKind it = SyntaxKind.COMMA
  | none => false

/-- Model of `SyntaxEditor::add_generic_param`: the staged operations, in
staging order.  In the empty-list case the source unwraps `l_angle_token`;
a parsed generic parameter list always has one, and the impossible `none`
branch stages nothing here (the source panics). -/
def add_generic_param (function : SyntaxElement) (new_param : SyntaxElement) :
    List EditOp :=
  match Fn.generic_param_list function with
  | some generic_param_list =>
    match (GenericParamList.generic_params generic_param_list).getLast? with
    | some last_param =>
      -- There exists a generic param list and it's not empty
      let position : Position :=
        match GenericParamList.r_angle_token generic_param_list with
        | some r => .before (getId r)
        | none => .lastChildOf (getId function)
      if followedByComma generic_param_list (getId last_param) then
        [ .insert (.after (getId last_param)) new_param,
          .insert (.after (getId last_param)) (makeToken .WHITESPACE),
          .insert (.after (getId last_param)) (makeToken .COMMA) ]
      else
        [ .insertAll position
            [makeToken .COMMA, makeToken .WHITESPACE, new_param] ]
    | none =>
      -- There exists a generic param list but it's empty
      match GenericParamList.l_angle_token generic_param_list with
      | some l => [ .insert (.after (getId l)) new_param ]
      | none => []
  | none =>
    -- There was no generic param list
    let position : Position :=
      match Fn.name function with
      | some name => .after (getId name)
      | none =>
        match Fn.fn_token function with
        | some fn_token => .after (getId fn_token)
        | none =>
          match Fn.param_list function with
          | some param_list => .before (getId param_list)
          | none => .lastChildOf (getId function)
    [ .insertAll position
        [makeToken .L_ANGLE, new_param, makeToken .R_ANGLE] ]

/-! ## `impl Removable for ast::Use` (edits.rs lines 83-120)

The `Use` node's siblings are represented by its parent's child list. -/

/-- Model of `str::strip_prefix('\n')`. -/
def stripLeadingNewline (s : String) : Option String :=
  match s.data with
  | c :: rest => if c = '\n' then some (String.mk rest) else none
  | [] => none

/-- Index of the last newline in a character list: `str::rfind('\n')`. -/
def lastNewlineIdx : List Char → Option Nat
  | [] => none
  | c :: cs =>
    match lastNewlineIdx cs with
    | some i => some (i + 1)
    | none => if c = '\n' then some 0 else none

/-- Length of the prefix up to and including the last newline:
`ws_text.rfind('\n').map(|x| x + 1).unwrap_or(0)` of edits.rs line 109. -/
def prevNewlineLen (l : List Char) : Nat :=
  match lastNewlineIdx l with
  | some x => x + 1
  | none => 0

/-- Model of `SyntaxFactory::whitespace` / `make::tokens::whitespace`:
a fresh whitespace token with the given text. -/
def makeWhitespace (s : String) : SyntaxElement :=
  .token 0 .WHITESPACE s

/-- Operations `ast::Use::remove` stages for the following whitespace
sibling (edits.rs lines 87-101). -/
def Use.nextWsOps (siblings : List SyntaxElement) (self : SyntaxElement) :
    List EditOp :=
  let next_ws :=
    match nextSiblingOrToken siblings (getId self) with
    | some it => if isTokenOfKind .WHITESPACE it then some it else none
    | none => none
  match next_ws with
  | some nws =>
    match stripLeadingNewline (elText nws) with
    | some rest =>
      if rest = ("") then [ .delete (getId nws) ]
      else [ .replace (getId nws) (makeWhitespace rest) ]
    | none => []
  | none => []

/-- Operations `ast::Use::remove` stages for the preceding whitespace
sibling (edits.rs lines 102-116). -/
def Use.prevWsOps (siblings : List SyntaxElement) (self : SyntaxElement) :
    List EditOp :=
  let prev_ws :=
    match prevSiblingOrToken siblings (getId self) with
    | some it => if isTokenOfKind .WHITESPACE it then some it else none
    | none => none
  match prev_ws with
  | some pws =>
    let ws_text := elText pws
    let rest := String.mk (ws_text.data.take (prevNewlineLen ws_text.data))
    if rest = ("") then [ .delete (getId pws) ]
    else [ .replace (getId pws) (makeWhitespace rest) ]
  | none => []

/-- Model of `<ast::Use as Removable>::remove`: whitespace normalization on
both sides, then deletion of the declaration itself. -/
def Use.remove (siblings : List SyntaxElement) (self : SyntaxElement) :
    List EditOp :=
  Use.nextWsOps siblings self ++ Use.prevWsOps siblings self ++
    [ .delete (getId self) ]

/-! ## `impl Removable for ast::UseTree` (edits.rs lines 122-138) -/

/-- Sibling direction, as in `Direction::Next` / `Direction::Prev`. -/
inductive Direction where
  | next
  | prev
deriving DecidableEq, Repr

/-- Siblings strictly after the element with identity `t`:
`siblings_with_tokens(dir).skip(1)`. -/
def siblingsAfterId (siblings : List SyntaxElement) (t : Nat) :
    List SyntaxElement :=
  match siblings with
  | [] => []
  | c :: rest => if getId c = t then rest else siblingsAfterId rest t

/-- Sibling walk in a direction, excluding the element itself. -/
def siblingsInDir (siblings : List SyntaxElement) (t : Nat) :
    Direction → List SyntaxElement
  | .next => siblingsAfterId siblings t
  | .prev => siblingsAfterId siblings.reverse t

/-- The element is a `UseTree` clause node. -/
def isUseTreeNode (e : SyntaxElement) : Bool :=
  isNodeOfKind .USE_TREE e

/-- Modelled from the spec: `algo::neighbor` (outside the source files)
finds the nearest sibling clause of the same type in the direction. -/
def neighbor (siblings : List SyntaxElement) (t : Nat) (dir : Direction) :
    Option SyntaxElement :=
  (siblingsInDir siblings t dir).find? isUseTreeNode

/-- Deletions of every sibling element strictly between the clause and its
neighbor: `take_while(|it| it.as_node() != Some(next_use_tree.syntax()))`
over `siblings_with_tokens(dir).skip(1)`. -/
def sepDeletes (sibs : List SyntaxElement) (nb : SyntaxElement) : List EditOp :=
  (sibs.takeWhile (fun it => !(isNodeEl it && getId it == getId nb))).map
    (fun it => EditOp.delete (getId it))

/-- Model of `<ast::UseTree as Removable>::remove`: the `for` loop over
`[Direction::Next, Direction::Prev]` with `break`, then deletion of the
clause itself. -/
def UseTree.remove (siblings : List SyntaxElement) (self : SyntaxElement) :
    List EditOp :=
  let sepOps :=
    match neighbor siblings (getId self) .next with
    | some nb => sepDeletes (siblingsInDir siblings (getId self) .next) nb
    | none =>
      match neighbor siblings (getId self) .prev with
      | some nb => sepDeletes (siblingsInDir siblings (getId self) .prev) nb
      | none => []
  sepOps ++ [ .delete (getId self) ]

/-! ## The Mapping Store and the Builder Facility

`SyntaxMapping` / `SyntaxMappingBuilder` live outside the two source files;
they are modelled from the spec, section 3: the store accumulates pairs
from input ("old") subtree identity to output ("new") subtree identity,
built only by `map_node` (single pair) and `map_children` (positional
pairing of two ordered sequences, paired up to the shorter length). -/

/-- Modelled from the spec: the Mapping Store, an accumulator of
input-to-output identity pairs. -/
structure SyntaxMapping where
  entries : List (Nat × Nat)

/-- Modelled from the spec: the builder collecting the pairs of one
construction call before `finish` flushes them into the store. -/
structure SyntaxMappingBuilder where
  newRoot : Nat
  nodeMappings : List (Nat × Nat)

/-- Fresh builder for the freshly built fragment rooted at `root`. -/
def SyntaxMappingBuilder.new (root : Nat) : SyntaxMappingBuilder :=
  ⟨root, []⟩

/-- Register a single input-to-output pair. -/
def SyntaxMappingBuilder.map_node (b : SyntaxMappingBuilder)
    (input output : Nat) : SyntaxMappingBuilder :=
  ⟨b.newRoot, b.nodeMappings ++ [(input, output)]⟩

/-- Register a positional pairing of two ordered sequences, paired up to
the shorter sequence's length. -/
def SyntaxMappingBuilder.map_children (b : SyntaxMappingBuilder)
    (inputs outputs : List Nat) : SyntaxMappingBuilder :=
  ⟨b.newRoot, b.nodeMappings ++ inputs.zip outputs⟩

/-- Flush the collected pairs into the store. -/
def SyntaxMappingBuilder.finish (b : SyntaxMappingBuilder)
    (m : SyntaxMapping) : SyntaxMapping :=
  ⟨m.entries ++ b.nodeMappings⟩

/-- The Builder Facility handle: `mappings()` returns the optional
Recording Context (`some` = recording active). -/
structure SyntaxFactory where
  mappings : Option SyntaxMapping

/-! ### The external `make` layer

Modelled from the spec: the grammar-aware raw constructors (`make::*`,
outside the two source files) assemble a fragment with the supplied
children in the grammar's fixed child slots.  Structural tokens of a fresh
fragment carry small fixed identities; `clone_for_update` re-identifies
the whole fragment (fresh mutable copy), modelled as a uniform identity
offset `off` standing for the allocation of fresh node identities. -/

mutual
/-- Model of `clone_for_update`: a fresh, exclusively owned copy; every
identity is shifted by the allocation offset. -/
def clone_for_update (off : Nat) : SyntaxElement → SyntaxElement
  | .token i k s => .token (i + off) k s
  | .node i k cs => .node (i + off) k (cloneList off cs)

/-- Fresh copies of a child list. -/
def cloneList (off : Nat) : List SyntaxElement → List SyntaxElement
  | [] => []
  | c :: cs => clone_for_update off c :: cloneList off cs
end

/-- Modelled from the spec: `make::name`. -/
def makeName (s : String) : SyntaxElement :=
  .node 1 .NAME [.token 2 .IDENT s]

/-- Modelled from the spec: `make::ty`, a type reference from raw text. -/
def makeTy (s : String) : SyntaxElement :=
  .node 1 .PATH_TYPE [.token 2 .IDENT s]

/-- Modelled from the spec: `make::type_param`. -/
def makeTypeParam (name : SyntaxElement) (bounds : Option SyntaxElement) :
    SyntaxElement :=
  .node 1 .TYPE_PARAM ([name] ++
    (match bounds with
     | some b => [SyntaxElement.token 2 .COLON (":"),
                  SyntaxElement.token 3 .WHITESPACE (" "), b]
     | none => []))

/-- Modelled from the spec: `make::ident_pat`. -/
def makeIdentPat (ref_ mut_ : Bool) (name : SyntaxElement) : SyntaxElement :=
  .node 1 .IDENT_PAT
    ((if ref_ then [SyntaxElement.token 2 .REF_KW ("ref"),
                    SyntaxElement.token 3 .WHITESPACE (" ")] else []) ++
     (if mut_ then [SyntaxElement.token 4 .MUT_KW ("mut"),
                    SyntaxElement.token 5 .WHITESPACE (" ")] else []) ++
     [name])

/-- Child sequence of a built statement list: opening brace, statements,
optional trailing expression, closing brace. -/
def blockInner (stmts : List SyntaxElement) (tail_expr : Option SyntaxElement) :
    List SyntaxElement :=
  [SyntaxElement.token 3 .L_CURLY ("\x7b")] ++ stmts ++ tail_expr.toList ++
    [SyntaxElement.token 4 .R_CURLY ("\x7d")]

/-- Modelled from the spec: `make::block_expr`, a block body holding the
statement sequence and the optional trailing expression. -/
def makeBlockExpr (stmts : List SyntaxElement) (tail_expr : Option SyntaxElement) :
    SyntaxElement :=
  .node 1 .BLOCK_EXPR [.node 2 .STMT_LIST (blockInner stmts tail_expr)]

/-- Modelled from the spec: `make::expr_bin_op`. -/
def makeExprBin (lhs : SyntaxElement) (op : String) (rhs : SyntaxElement) :
    SyntaxElement :=
  .node 1 .BIN_EXPR
    [lhs, SyntaxElement.token 2 .WHITESPACE (" "),
     SyntaxElement.token 3 .IDENT op,
     SyntaxElement.token 4 .WHITESPACE (" "), rhs]

/-- Modelled from the spec: `make::expr_path`. -/
def makeExprPath (path : SyntaxElement) : SyntaxElement :=
  .node 1 .PATH_EXPR [path]

/-- Modelled from the spec: `make::expr_ref`. -/
def makeExprRef (expr : SyntaxElement) (exclusive : Bool) : SyntaxElement :=
  .node 1 .REF_EXPR
    ([SyntaxElement.token 2 .AMP ("&")] ++
     (if exclusive then [SyntaxElement.token 3 .MUT_KW ("mut"),
                         SyntaxElement.token 4 .WHITESPACE (" ")] else []) ++
     [expr])

/-- Modelled from the spec: `make::let_stmt`. -/
def makeLetStmt (pattern : SyntaxElement) (ty : Option SyntaxElement)
    (initializer : Option SyntaxElement) : SyntaxElement :=
  .node 1 .LET_STMT
    ([SyntaxElement.token 2 .LET_KW ("let"),
      SyntaxElement.token 3 .WHITESPACE (" "), pattern] ++
     (match ty with
      | some t => [SyntaxElement.token 4 .COLON (":"),
                   SyntaxElement.token 5 .WHITESPACE (" "), t]
      | none => []) ++
     (match initializer with
      | some e => [SyntaxElement.token 6 .WHITESPACE (" "),
                   SyntaxElement.token 7 .EQ ("="),
                   SyntaxElement.token 8 .WHITESPACE (" "), e]
      | none => []) ++
     [SyntaxElement.token 9 .SEMICOLON (";")])

/-- Comma-and-space separated run, as the external joiner renders an
argument list. -/
def commaSeparated : List SyntaxElement → List SyntaxElement
  | [] => []
  | [x] => [x]
  | x :: xs =>
    x :: .token 0 .COMMA (",") :: .token 0 .WHITESPACE (" ") ::
      commaSeparated xs

/-- Modelled from the spec: `make::turbofish_generic_arg_list`. -/
def makeTurbofishGenericArgList (args : List SyntaxElement) : SyntaxElement :=
  .node 1 .GENERIC_ARG_LIST
    ([SyntaxElement.token 2 .COLON2 ("::"),
      SyntaxElement.token 3 .L_ANGLE ("<")] ++ commaSeparated args ++
     [SyntaxElement.token 4 .R_ANGLE (">")])

/-- Closing delimiter kind for a token-group opening delimiter. -/
def closingOf : SyntaxKind → SyntaxKind
  | .L_PAREN => .R_PAREN
  | .L_CURLY => .R_CURLY
  | .L_BRACK => .R_BRACK
  | _ => .ERROR

/-- Modelled from the spec: `make::token_tree`, a delimited token group
holding the supplied contents between the delimiter pair. -/
def makeTokenTree (delimiter : SyntaxKind) (tt : List SyntaxElement) :
    SyntaxElement :=
  .node 1 .TOKEN_TREE
    ([SyntaxElement.token 2 delimiter (makeTokenText delimiter)] ++ tt ++
     [SyntaxElement.token 3 (closingOf delimiter)
        (makeTokenText (closingOf delimiter))])

/-! ### Typed accessors used by the mapping blocks of constructors.rs -/

/-- The element is a statement node (`Stmt` cast). -/
def isStmtNode (e : SyntaxElement) : Bool :=
  isNodeOfKind .LET_STMT e || isNodeOfKind .EXPR_STMT e

/-- The element is an expression node (`Expr` cast). -/
def isExprNode (e : SyntaxElement) : Bool :=
  isNodeOfKind .BIN_EXPR e || isNodeOfKind .PATH_EXPR e ||
    isNodeOfKind .REF_EXPR e || isNodeOfKind .LITERAL e ||
    isNodeOfKind .BLOCK_EXPR e

/-- The element is a pattern node (`Pat` cast). -/
def isPatNode (e : SyntaxElement) : Bool :=
  isNodeOfKind .IDENT_PAT e

/-- The element is a type node (`Type` cast). -/
def isTypeNode (e : SyntaxElement) : Bool :=
  isNodeOfKind .PATH_TYPE e

/-- The element is a generic argument node (`GenericArg` cast). -/
def isGenericArgNode (e : SyntaxElement) : Bool :=
  isNodeOfKind .TYPE_ARG e

/-- Accessor `HasName::name` on a built fragment. -/
def nameOf (e : SyntaxElement) : Option SyntaxElement :=
  firstChildNodeOfKind .NAME e

/-- Accessor `TypeParam::type_bound_list`. -/
def type_bound_list (e : SyntaxElement) : Option SyntaxElement :=
  firstChildNodeOfKind .TYPE_BOUND_LIST e

/-- Accessor `BlockExpr::stmt_list`. -/
def BlockExpr.stmt_list (e : SyntaxElement) : Option SyntaxElement :=
  firstChildNodeOfKind .STMT_LIST e

/-- Accessor `StmtList::statements`. -/
def StmtList.statements (e : SyntaxElement) : List SyntaxElement :=
  (childrenOf e).filter isStmtNode

/-- Accessor `StmtList::tail_expr`. -/
def StmtList.tail_expr (e : SyntaxElement) : Option SyntaxElement :=
  (childrenOf e).find? isExprNode

/-- Expression children, used by `BinExpr::lhs` / `BinExpr::rhs`. -/
def exprChildren (e : SyntaxElement) : List SyntaxElement :=
  (childrenOf e).filter isExprNode

/-- Accessor `BinExpr::lhs`. -/
def BinExpr.lhs (e : SyntaxElement) : Option SyntaxElement :=
  (exprChildren e).get? 0

/-- Accessor `BinExpr::rhs`. -/
def BinExpr.rhs (e : SyntaxElement) : Option SyntaxElement :=
  (exprChildren e).get? 1

/-- Accessor `PathExpr::path`. -/
def PathExpr.path (e : SyntaxElement) : Option SyntaxElement :=
  firstChildNodeOfKind .PATH e

/-- Accessor `RefExpr::expr`. -/
def RefExpr.expr (e : SyntaxElement) : Option SyntaxElement :=
  (childrenOf e).find? isExprNode

/-- Accessor `LetStmt::pat`. -/
def LetStmt.pat (e : SyntaxElement) : Option SyntaxElement :=
  (childrenOf e).find? isPatNode

/-- Accessor `LetStmt::ty`. -/
def LetStmt.ty (e : SyntaxElement) : Option SyntaxElement :=
  (childrenOf e).find? isTypeNode

/-- Accessor `LetStmt::initializer`. -/
def LetStmt.initializer (e : SyntaxElement) : Option SyntaxElement :=
  (childrenOf e).find? isExprNode

/-- Accessor `GenericArgList::generic_args`. -/
def GenericArgList.generic_args (e : SyntaxElement) : List SyntaxElement :=
  (childrenOf e).filter isGenericArgNode

/-- Accessor `TokenTree::token_trees_and_tokens`: all child elements. -/
def TokenTree.token_trees_and_tokens (e : SyntaxElement) : List SyntaxElement :=
  childrenOf e

/-- The identity behind an `unwrap()` on an accessor result; the source
panics on `none`, which no fragment built here produces. -/
def unwrapId (o : Option SyntaxElement) : Nat :=
  match o with
  | some e => getId e
  | none => 0

/-! ### `SyntaxFactory` constructors (constructors.rs lines 12-205)

Each model returns the built fragment together with the list of
input-to-output pairs the call registers into the Mapping Store (the pairs
`builder.finish` appends; empty when the Recording Context is absent).
`off` is the fresh-identity allocation of the call's `clone_for_update`. -/

/-- Model of `SyntaxFactory::name` (lines 13-15): no mapping bookkeeping. -/
def SyntaxFactory.name (_f : SyntaxFactory) (off : Nat) (s : String) :
    SyntaxElement × List (Nat × Nat) :=
  (clone_for_update off (makeName s), [])

/-- Model of `SyntaxFactory::ty` (lines 17-19): no mapping bookkeeping. -/
def SyntaxFactory.ty (_f : SyntaxFactory) (off : Nat) (s : String) :
    SyntaxElement × List (Nat × Nat) :=
  (clone_for_update off (makeTy s), [])

/-- Model of `SyntaxFactory::type_param` (lines 21-41). -/
def SyntaxFactory.type_param (f : SyntaxFactory) (off : Nat)
    (name : SyntaxElement) (bounds : Option SyntaxElement) :
    SyntaxElement × List (Nat × Nat) :=
  let ast := clone_for_update off (makeTypeParam name bounds)
  match f.mappings with
  | some _ =>
    let b := SyntaxMappingBuilder.new (getId ast)
    let b := b.map_node (getId name) (unwrapId (nameOf ast))
    let b :=
      match bounds with
      | some input => b.map_node (getId input) (unwrapId (type_bound_list ast))
      | none => b
    (ast, b.nodeMappings)
  | none => (ast, [])

/-- Model of `SyntaxFactory::whitespace` (lines 43-45): a raw token, no
clone, no bookkeeping. -/
def SyntaxFactory.whitespace (_f : SyntaxFactory) (text : String) :
    SyntaxElement × List (Nat × Nat) :=
  (makeWhitespace text, [])

/-- Model of `SyntaxFactory::ident_pat` (lines 47-57). -/
def SyntaxFactory.ident_pat (f : SyntaxFactory) (off : Nat)
    (ref_ mut_ : Bool) (name : SyntaxElement) :
    SyntaxElement × List (Nat × Nat) :=
  let ast := clone_for_update off (makeIdentPat ref_ mut_ name)
  match f.mappings with
  | some _ =>
    let b := SyntaxMappingBuilder.new (getId ast)
    let b := b.map_node (getId name) (unwrapId (nameOf ast))
    (ast, b.nodeMappings)
  | none => (ast, [])

/-- Model of `SyntaxFactory::block_expr` (lines 59-85). -/
def SyntaxFactory.block_expr (f : SyntaxFactory) (off : Nat)
    (stmts : List SyntaxElement) (tail_expr : Option SyntaxElement) :
    SyntaxElement × List (Nat × Nat) :=
  let input := stmts.map getId
  let ast := clone_for_update off (makeBlockExpr stmts tail_expr)
  match f.mappings, BlockExpr.stmt_list ast with
  | some _, some stmt_list =>
    let b := SyntaxMappingBuilder.new (getId stmt_list)
    let b := b.map_children input ((StmtList.statements stmt_list).map getId)
    let b :=
      match tail_expr, StmtList.tail_expr stmt_list with
      | some i, some o => b.map_node (getId i) (getId o)
      | _, _ => b
    (ast, b.nodeMappings)
  | _, _ => (ast, [])

/-- Model of `SyntaxFactory::expr_bin` (lines 87-102). -/
def SyntaxFactory.expr_bin (f : SyntaxFactory) (off : Nat)
    (lhs : SyntaxElement) (op : String) (rhs : SyntaxElement) :
    SyntaxElement × List (Nat × Nat) :=
  let ast := clone_for_update off (makeExprBin lhs op rhs)
  match f.mappings with
  | some _ =>
    let b := SyntaxMappingBuilder.new (getId ast)
    let b := b.map_node (getId lhs) (unwrapId (BinExpr.lhs ast))
    let b := b.map_node (getId rhs) (unwrapId (BinExpr.rhs ast))
    (ast, b.nodeMappings)
  | none => (ast, [])

/-- Model of `SyntaxFactory::expr_path` (lines 104-116). -/
def SyntaxFactory.expr_path (f : SyntaxFactory) (off : Nat)
    (path : SyntaxElement) : SyntaxElement × List (Nat × Nat) :=
  let ast := clone_for_update off (makeExprPath path)
  match f.mappings with
  | some _ =>
    let b := SyntaxMappingBuilder.new (getId ast)
    let b := b.map_node (getId path) (unwrapId (PathExpr.path ast))
    (ast, b.nodeMappings)
  | none => (ast, [])

/-- Model of `SyntaxFactory::expr_ref` (lines 118-131). -/
def SyntaxFactory.expr_ref (f : SyntaxFactory) (off : Nat)
    (expr : SyntaxElement) (exclusive : Bool) :
    SyntaxElement × List (Nat × Nat) :=
  let ast := clone_for_update off (makeExprRef expr exclusive)
  match f.mappings with
  | some _ =>
    let b := SyntaxMappingBuilder.new (getId ast)
    let b := b.map_node (getId expr) (unwrapId (RefExpr.expr ast))
    (ast, b.nodeMappings)
  | none => (ast, [])

/-- Model of `SyntaxFactory::let_stmt` (lines 133-156). -/
def SyntaxFactory.let_stmt (f : SyntaxFactory) (off : Nat)
    (pattern : SyntaxElement) (ty : Option SyntaxElement)
    (initializer : Option SyntaxElement) :
    SyntaxElement × List (Nat × Nat) :=
  let ast := clone_for_update off (makeLetStmt pattern ty initializer)
  match f.mappings with
  | some _ =>
    let b := SyntaxMappingBuilder.new (getId ast)
    let b := b.map_node (getId pattern) (unwrapId (LetStmt.pat ast))
    let b :=
      match ty with
      | some input => b.map_node (getId input) (unwrapId (LetStmt.ty ast))
      | none => b
    let b :=
      match initializer with
      | some input =>
        b.map_node (getId input) (unwrapId (LetStmt.initializer ast))
      | none => b
    (ast, b.nodeMappings)
  | none => (ast, [])

/-- Model of `SyntaxFactory::turbofish_generic_arg_list` (lines 158-174). -/
def SyntaxFactory.turbofish_generic_arg_list (f : SyntaxFactory) (off : Nat)
    (args : List SyntaxElement) : SyntaxElement × List (Nat × Nat) :=
  let ast := clone_for_update off (makeTurbofishGenericArgList args)
  match f.mappings with
  | some _ =>
    let b := SyntaxMappingBuilder.new (getId ast)
    let b := b.map_children (args.map getId)
      ((GenericArgList.generic_args ast).map getId)
    (ast, b.nodeMappings)
  | none => (ast, [])

/-- Model of the local `only_nodes` of `SyntaxFactory::token_tree`. -/
def only_nodes (element : SyntaxElement) : Option SyntaxElement :=
  if isNodeEl element then some element else none

/-- Model of `SyntaxFactory::token_tree` (lines 176-200). -/
def SyntaxFactory.token_tree (f : SyntaxFactory) (off : Nat)
    (delimiter : SyntaxKind) (tt : List SyntaxElement) :
    SyntaxElement × List (Nat × Nat) :=
  let input := (tt.filterMap only_nodes).map getId
  let ast := clone_for_update off (makeTokenTree delimiter tt)
  match f.mappings with
  | some _ =>
    let b := SyntaxMappingBuilder.new (getId ast)
    let b := b.map_children input
      (((TokenTree.token_trees_and_tokens ast).filterMap only_nodes).map getId)
    (ast, b.nodeMappings)
  | none => (ast, [])

/-- Model of `SyntaxFactory::token` (lines 202-204): a raw token, no
bookkeeping. -/
def SyntaxFactory.token (_f : SyntaxFactory) (kind : SyntaxKind) :
    SyntaxElement × List (Nat × Nat) :=
  (makeToken kind, [])

/-! ## Concrete example trees

The parse trees of the spec's examples (the spec writes the function
keyword as `function` and the import keyword as `import`; the grammar's
concrete tokens are `fn` and `use`). -/

/-- Parse tree of `fn foo<A>() \x7b\x7d`. -/
def fnFooA : SyntaxElement :=
  .node 1 .FN [.token 2 .FN_KW ("fn"), .token 3 .WHITESPACE (" "),
    .node 4 .NAME [.token 5 .IDENT ("foo")],
    .node 6 .GENERIC_PARAM_LIST [.token 7 .L_ANGLE ("<"),
      .node 8 .TYPE_PARAM [.node 9 .NAME [.token 10 .IDENT ("A")]],
      .token 11 .R_ANGLE (">")],
    .node 12 .PARAM_LIST [.token 13 .L_PAREN ("("), .token 14 .R_PAREN (")")],
    .token 15 .WHITESPACE (" "),
    .node 16 .BLOCK_EXPR [.node 17 .STMT_LIST
      [.token 18 .L_CURLY ("\x7b"), .token 19 .R_CURLY ("\x7d")]]]

/-- Fresh generic parameter fragment `B`. -/
def paramB : SyntaxElement :=
  .node 100 .TYPE_PARAM [.node 101 .NAME [.token 102 .IDENT ("B")]]

/-- Parse tree of `fn foo<A,>() \x7b\x7d` (trailing separator present). -/
def fnFooAc : SyntaxElement :=
  .node 1 .FN [.token 2 .FN_KW ("fn"), .token 3 .WHITESPACE (" "),
    .node 4 .NAME [.token 5 .IDENT ("foo")],
    .node 6 .GENERIC_PARAM_LIST [.token 7 .L_ANGLE ("<"),
      .node 8 .TYPE_PARAM [.node 9 .NAME [.token 10 .IDENT ("A")]],
      .token 20 .COMMA (","),
      .token 11 .R_ANGLE (">")],
    .node 12 .PARAM_LIST [.token 13 .L_PAREN ("("), .token 14 .R_PAREN (")")],
    .token 15 .WHITESPACE (" "),
    .node 16 .BLOCK_EXPR [.node 17 .STMT_LIST
      [.token 18 .L_CURLY ("\x7b"), .token 19 .R_CURLY ("\x7d")]]]

/-- Parse tree of `fn foo() \x7b\x7d` (no generic parameter list). -/
def fnFoo : SyntaxElement :=
  .node 1 .FN [.token 2 .FN_KW ("fn"), .token 3 .WHITESPACE (" "),
    .node 4 .NAME [.token 5 .IDENT ("foo")],
    .node 12 .PARAM_LIST [.token 13 .L_PAREN ("("), .token 14 .R_PAREN (")")],
    .token 15 .WHITESPACE (" "),
    .node 16 .BLOCK_EXPR [.node 17 .STMT_LIST
      [.token 18 .L_CURLY ("\x7b"), .token 19 .R_CURLY ("\x7d")]]]

/-- Fresh generic parameter fragment `T`. -/
def paramT : SyntaxElement :=
  .node 100 .TYPE_PARAM [.node 101 .NAME [.token 102 .IDENT ("T")]]

/-- Parse tree of `fn foo<A >() \x7b\x7d`: a whitespace token stands
between the last generic parameter and the closing angle bracket. -/
def fnFooAws : SyntaxElement :=
  .node 1 .FN [.token 2 .FN_KW ("fn"), .token 3 .WHITESPACE (" "),
    .node 4 .NAME [.token 5 .IDENT ("foo")],
    .node 6 .GENERIC_PARAM_LIST [.token 7 .L_ANGLE ("<"),
      .node 8 .TYPE_PARAM [.node 9 .NAME [.token 10 .IDENT ("A")]],
      .token 21 .WHITESPACE (" "),
      .token 11 .R_ANGLE (">")],
    .node 12 .PARAM_LIST [.token 13 .L_PAREN ("("), .token 14 .R_PAREN (")")],
    .token 15 .WHITESPACE (" "),
    .node 16 .BLOCK_EXPR [.node 17 .STMT_LIST
      [.token 18 .L_CURLY ("\x7b"), .token 19 .R_CURLY ("\x7d")]]]

/-- Malformed tree `fn foo<A() \x7b\x7d`: generic parameter list present
and non-empty but its closing angle bracket is missing. -/
def fnFooANoR : SyntaxElement :=
  .node 1 .FN [.token 2 .FN_KW ("fn"), .token 3 .WHITESPACE (" "),
    .node 4 .NAME [.token 5 .IDENT ("foo")],
    .node 6 .GENERIC_PARAM_LIST [.token 7 .L_ANGLE ("<"),
      .node 8 .TYPE_PARAM [.node 9 .NAME [.token 10 .IDENT ("A")]]],
    .node 12 .PARAM_LIST [.token 13 .L_PAREN ("("), .token 14 .R_PAREN (")")],
    .token 15 .WHITESPACE (" "),
    .node 16 .BLOCK_EXPR [.node 17 .STMT_LIST
      [.token 18 .L_CURLY ("\x7b"), .token 19 .R_CURLY ("\x7d")]]]

/-- First import declaration of the two-declaration source file. -/
def useDecl1 : SyntaxElement :=
  .node 2 .USE [.token 3 .IDENT ("use foo::bar;")]

/-- Parse tree of the source text `use foo::bar;\nuse baz::qux;\n`. -/
def useFile : SyntaxElement :=
  .node 1 .SOURCE_FILE [useDecl1,
    .token 4 .WHITESPACE ("\n"),
    .node 5 .USE [.token 6 .IDENT ("use baz::qux;")],
    .token 7 .WHITESPACE ("\n")]

/-- Parse tree of `use foo::bar; \n`: the whitespace token following the
declaration is a space followed by a newline, so it does not begin with a
line break. -/
def useFileC1 : SyntaxElement :=
  .node 1 .SOURCE_FILE [useDecl1,
    .token 4 .WHITESPACE (" \n")]

/-- Clause `a` of the grouped import. -/
def utA : SyntaxElement := .node 6 .USE_TREE [.token 7 .IDENT ("a")]

/-- Clause `b` of the grouped import. -/
def utB : SyntaxElement := .node 10 .USE_TREE [.token 11 .IDENT ("b")]

/-- Clause `c` of the grouped import. -/
def utC : SyntaxElement := .node 14 .USE_TREE [.token 15 .IDENT ("c")]

/-- Children of the grouped import's clause list `\x7ba, b, c\x7d`. -/
def utlChildren : List SyntaxElement :=
  [.token 5 .L_CURLY ("\x7b"), utA, .token 8 .COMMA (","),
   .token 9 .WHITESPACE (" "), utB, .token 12 .COMMA (","),
   .token 13 .WHITESPACE (" "), utC, .token 16 .R_CURLY ("\x7d")]

/-- Parse tree of `use foo::\x7ba, b, c\x7d;`. -/
def useGrouped : SyntaxElement :=
  .node 1 .USE [.token 2 .IDENT ("use foo::"),
    .node 3 .USE_TREE [.node 4 .USE_TREE_LIST utlChildren],
    .token 17 .SEMICOLON (";")]

/-- A factory with an active Recording Context. -/
def facRec : SyntaxFactory := ⟨some ⟨[]⟩⟩

/-- A factory without a Recording Context. -/
def facOff : SyntaxFactory := ⟨none⟩

/-- Spec wording for claim C1: the substring of a whitespace text after
its first line break. -/
def afterFirstLineBreak (s : String) : String :=
  String.mk ((s.data.dropWhile (fun c => c ≠ '\n')).drop 1)

/-- The generic-parameter list subtree of `fnFooA`. -/
def gplFooA : SyntaxElement :=
  .node 6 .GENERIC_PARAM_LIST [.token 7 .L_ANGLE ("<"),
    .node 8 .TYPE_PARAM [.node 9 .NAME [.token 10 .IDENT ("A")]],
    .token 11 .R_ANGLE (">")]

/-- The generic-parameter list subtree of `fnFooAc`. -/
def gplFooAc : SyntaxElement :=
  .node 6 .GENERIC_PARAM_LIST [.token 7 .L_ANGLE ("<"),
    .node 8 .TYPE_PARAM [.node 9 .NAME [.token 10 .IDENT ("A")]],
    .token 20 .COMMA (","),
    .token 11 .R_ANGLE (">")]

/-- The generic-parameter list subtree of `fnFooANoR`. -/
def gplFooANoR : SyntaxElement :=
  .node 6 .GENERIC_PARAM_LIST [.token 7 .L_ANGLE ("<"),
    .node 8 .TYPE_PARAM [.node 9 .NAME [.token 10 .IDENT ("A")]]]

/-- The last (only) generic parameter `A` of the example lists. -/
def lastParamA : SyntaxElement :=
  .node 8 .TYPE_PARAM [.node 9 .NAME [.token 10 .IDENT ("A")]]

/-- The closing angle bracket token of the example lists. -/
def rAngleTok : SyntaxElement := .token 11 .R_ANGLE (">")

/-- The name node `foo` of the example functions. -/
def nameFoo : SyntaxElement := .node 4 .NAME [.token 5 .IDENT ("foo")]

/-- A concrete statement node for Builder Facility witnesses. -/
def stmtEx : SyntaxElement :=
  .node 50 .LET_STMT [.token 51 .IDENT ("let x = 1;")]

/-- A concrete trailing-expression node for Builder Facility witnesses. -/
def tailEx : SyntaxElement :=
  .node 52 .PATH_EXPR [.token 53 .IDENT ("x")]

/-- A concrete generic-argument node for Builder Facility witnesses. -/
def targEx : SyntaxElement :=
  .node 54 .TYPE_ARG [.token 55 .IDENT ("u32")]

/-- A concrete token element for token-group witnesses. -/
def ttTokEx : SyntaxElement := .token 56 .IDENT ("x")

/-- A concrete nested token-group element for token-group witnesses. -/
def ttNodeEx : SyntaxElement :=
  .node 57 .TOKEN_TREE
    [.token 58 .L_PAREN ("("), .token 59 .R_PAREN (")")]

end SynEd

namespace SynEd

/-! ## Theorems -/

/-- Claim C5: for every function whose generic-parameter list is present
and non-empty and whose last parameter is immediately followed by a
separator token, `add_generic_param` stages (in staging order, each
anchored immediately after the last parameter, so that they materialize as
separator, space, new parameter, before the pre-existing trailing
separator) the new parameter, a space and a separator; in particular
`fn foo<A,>() \x7b\x7d` with parameter `B` becomes
`fn foo<A, B,>() \x7b\x7d`, the new parameter inserted before the existing
trailing separator. -/
theorem claim_C5 :
    (∀ function new_param gpl last_param,
      Fn.generic_param_list function = some gpl →
      (GenericParamList.generic_params gpl).getLast? = some last_param →
      followedByComma gpl (getId last_param) = true →
      add_generic_param function new_param =
        [ .insert (.after (getId last_param)) new_param,
          .insert (.after (getId last_param)) (makeToken .WHITESPACE),
          .insert (.after (getId last_param)) (makeToken .COMMA) ]) ∧
    elText (applyOps (add_generic_param fnFooAc paramB) fnFooAc) =
      ("fn foo<A, B,>() \x7b\x7d") := by
  constructor
  · intro function new_param gpl last_param h1 h2 h3
    simp [add_generic_param, h1, h2, h3]
  · rfl

/-- Witness for claim C5 at the spec's example `fn foo<A,>() \x7b\x7d`. -/
theorem claim_C5_witness :
    followedByComma gplFooAc (getId lastParamA) = true ∧
    add_generic_param fnFooAc paramB =
      [ .insert (.after (getId lastParamA)) paramB,
        .insert (.after (getId lastParamA)) (makeToken .WHITESPACE),
        .insert (.after (getId lastParamA)) (makeToken .COMMA) ] :=
  ⟨by decide, claim_C5.1 fnFooAc paramB gplFooAc lastParamA rfl rfl (by decide)⟩

/-- Claim C3 as stated is false: on `fn foo<A >() \x7b\x7d`, where a
whitespace token stands between the last parameter and the closing angle
bracket, the code anchors the insertion before the closing bracket, not
immediately after the last parameter: the edited function reads
`fn foo<A , B>() \x7b\x7d` and the element immediately following the last
parameter (identity 8) is still the whitespace token, not a separator. -/
theorem claim_C3_counterexample :
    elText (applyOps (add_generic_param fnFooAws paramB) fnFooAws) =
      ("fn foo<A , B>() \x7b\x7d") ∧
    (Fn.generic_param_list
        (applyOps (add_generic_param fnFooAws paramB) fnFooAws)).map
      (fun g => (nextSiblingOrToken (childrenOf g) 8).map getKind) =
      some (some SyntaxKind.WHITESPACE) ∧
    SyntaxKind.WHITESPACE ≠ SyntaxKind.COMMA :=
  ⟨rfl, rfl, by decide⟩

/-- Claim C3 (amended): for every function whose generic-parameter list is
present and non-empty, whose last parameter is not followed by a separator
token and whose list has a closing angle bracket, `add_generic_param`
inserts a separator, a space, then the new parameter immediately before
the closing angle bracket (hence immediately after the last parameter
whenever the last parameter directly precedes that bracket); in particular
`fn foo<A>() \x7b\x7d` with parameter `B` becomes
`fn foo<A, B>() \x7b\x7d`. -/
theorem claim_C3_amended :
    (∀ function new_param gpl last_param r,
      Fn.generic_param_list function = some gpl →
      (GenericParamList.generic_params gpl).getLast? = some last_param →
      followedByComma gpl (getId last_param) = false →
      GenericParamList.r_angle_token gpl = some r →
      add_generic_param function new_param =
        [ .insertAll (.before (getId r))
            [makeToken .COMMA, makeToken .WHITESPACE, new_param] ]) ∧
    elText (applyOps (add_generic_param fnFooA paramB) fnFooA) =
      ("fn foo<A, B>() \x7b\x7d") := by
  constructor
  · intro function new_param gpl last_param r h1 h2 h3 h4
    simp [add_generic_param, h1, h2, h3, h4]
  · rfl

/-- Witness for the amended claim C3 at the spec's example
`fn foo<A>() \x7b\x7d`. -/
theorem claim_C3_witness :
    followedByComma gplFooA (getId lastParamA) = false ∧
    add_generic_param fnFooA paramB =
      [ .insertAll (.before (getId rAngleTok))
          [makeToken .COMMA, makeToken .WHITESPACE, paramB] ] :=
  ⟨by decide,
   claim_C3_amended.1 fnFooA paramB gplFooA lastParamA rAngleTok rfl rfl
     (by decide) rfl⟩

/-- Claim C7: for every function with no generic-parameter list,
`add_generic_param` picks the insertion anchor by priority (after the
function's name, else after the `fn` keyword token, else before the
parameter list, else as the function's last child) and stages there the
contiguous ordered triple opening bracket, new parameter, closing bracket;
in particular `fn foo() \x7b\x7d` with parameter `T` becomes
`fn foo<T>() \x7b\x7d`. -/
theorem claim_C7 :
    (∀ function new_param,
      Fn.generic_param_list function = none →
      ((∀ name, Fn.name function = some name →
          add_generic_param function new_param =
            [ .insertAll (.after (getId name))
                [makeToken .L_ANGLE, new_param, makeToken .R_ANGLE] ]) ∧
       (Fn.name function = none →
        ∀ fn_token, Fn.fn_token function = some fn_token →
          add_generic_param function new_param =
            [ .insertAll (.after (getId fn_token))
                [makeToken .L_ANGLE, new_param, makeToken .R_ANGLE] ]) ∧
       (Fn.name function = none → Fn.fn_token function = none →
        ∀ param_list, Fn.param_list function = some param_list →
          add_generic_param function new_param =
            [ .insertAll (.before (getId param_list))
                [makeToken .L_ANGLE, new_param, makeToken .R_ANGLE] ]) ∧
       (Fn.name function = none → Fn.fn_token function = none →
        Fn.param_list function = none →
          add_generic_param function new_param =
            [ .insertAll (.lastChildOf (getId function))
                [makeToken .L_ANGLE, new_param, makeToken .R_ANGLE] ]))) ∧
    elText (applyOps (add_generic_param fnFoo paramT) fnFoo) =
      ("fn foo<T>() \x7b\x7d") := by
  refine ⟨fun function new_param h0 => ⟨?_, ?_, ?_, ?_⟩, rfl⟩
  · intro name h1
    simp [add_generic_param, h0, h1]
  · intro h1 fn_token h2
    simp [add_generic_param, h0, h1, h2]
  · intro h1 h2 param_list h3
    simp [add_generic_param, h0, h1, h2, h3]
  · intro h1 h2 h3
    simp [add_generic_param, h0, h1, h2, h3]

/-- Witness for claim C7 at the spec's example `fn foo() \x7b\x7d`. -/
theorem claim_C7_witness :
    Fn.generic_param_list fnFoo = none ∧
    add_generic_param fnFoo paramT =
      [ .insertAll (.after (getId nameFoo))
          [makeToken .L_ANGLE, paramT, makeToken .R_ANGLE] ] :=
  ⟨rfl, ((claim_C7.1 fnFoo paramT rfl).1) nameFoo rfl⟩

/-- Claim C10: for every function whose generic-parameter list is present
and non-empty, whose last parameter has no following separator token, and
whose list has no closing angle bracket, `add_generic_param` falls back to
staging the separator, space and new parameter as the function node's last
children rather than failing; on the malformed `fn foo<A() \x7b\x7d` the
run is appended at the end of the function. -/
theorem claim_C10 :
    (∀ function new_param gpl last_param,
      Fn.generic_param_list function = some gpl →
      (GenericParamList.generic_params gpl).getLast? = some last_param →
      followedByComma gpl (getId last_param) = false →
      GenericParamList.r_angle_token gpl = none →
      add_generic_param function new_param =
        [ .insertAll (.lastChildOf (getId function))
            [makeToken .COMMA, makeToken .WHITESPACE, new_param] ]) ∧
    elText (applyOps (add_generic_param fnFooANoR paramB) fnFooANoR) =
      ("fn foo<A() \x7b\x7d, B") := by
  constructor
  · intro function new_param gpl last_param h1 h2 h3 h4
    simp [add_generic_param, h1, h2, h3, h4]
  · rfl

/-- Witness for claim C10 at the malformed list `fn foo<A() \x7b\x7d`. -/
theorem claim_C10_witness :
    GenericParamList.r_angle_token gplFooANoR = none ∧
    add_generic_param fnFooANoR paramB =
      [ .insertAll (.lastChildOf (getId fnFooANoR))
          [makeToken .COMMA, makeToken .WHITESPACE, paramB] ] :=
  ⟨rfl,
   claim_C10.1 fnFooANoR paramB gplFooANoR lastParamA rfl rfl (by decide) rfl⟩

/-! ### Newline helper lemmas for the whitespace-normalization claims -/

/-- The last-newline search fails exactly when the text has no newline. -/
theorem lastNewlineIdx_eq_none (l : List Char) :
    lastNewlineIdx l = none ↔ '\n' ∉ l := by
  induction l with
  | nil => simp [lastNewlineIdx]
  | cons c cs ih =>
    cases h : lastNewlineIdx cs with
    | some i =>
      have hmem : '\n' ∈ cs := by
        by_contra hn
        rw [ih.mpr hn] at h
        cases h
      simp [lastNewlineIdx, h, hmem]
    | none =>
      have hn : '\n' ∉ cs := ih.mp h
      by_cases hc : c = '\n'
      · simp [lastNewlineIdx, h, hc]
      · simp [lastNewlineIdx, h, hc, hn]
        exact fun heq => hc heq.symm

/-- A successful last-newline search returns the index of a newline with no
newline after it. -/
theorem lastNewlineIdx_spec (l : List Char) (i : Nat)
    (h : lastNewlineIdx l = some i) :
    l[i]? = some '\n' ∧ '\n' ∉ l.drop (i + 1) := by
  induction l generalizing i with
  | nil => cases h
  | cons c cs ih =>
    cases h2 : lastNewlineIdx cs with
    | some j =>
      rw [lastNewlineIdx, h2] at h
      obtain rfl : j + 1 = i := by cases h; rfl
      have hj := ih j h2
      refine ⟨?_, ?_⟩
      · simpa using hj.1
      · simpa using hj.2
    | none =>
      rw [lastNewlineIdx, h2] at h
      by_cases hc : c = '\n'
      · rw [if_pos hc] at h
        obtain rfl : 0 = i := by cases h; rfl
        refine ⟨by simp [hc], ?_⟩
        simpa using (lastNewlineIdx_eq_none cs).mp h2
      · rw [if_neg hc] at h
        cases h

/-- The source's cut length is zero exactly when the whitespace contains no
line break at all. -/
theorem prevNewlineLen_eq_zero_iff (l : List Char) :
    prevNewlineLen l = 0 ↔ '\n' ∉ l := by
  unfold prevNewlineLen
  cases h : lastNewlineIdx l with
  | none => simp [(lastNewlineIdx_eq_none l).mp h]
  | some i =>
    have hsp := lastNewlineIdx_spec l i h
    have hmem : '\n' ∈ l := by
      have := hsp.1
      exact List.getElem?_mem this
    simp [hmem]

/-- The kept prefix ends with the last line break. -/
theorem take_prevNewlineLen_getLast (l : List Char) (h : '\n' ∈ l) :
    (l.take (prevNewlineLen l)).getLast? = some '\n' := by
  unfold prevNewlineLen
  cases hidx : lastNewlineIdx l with
  | none => exact absurd h ((lastNewlineIdx_eq_none l).mp hidx)
  | some i =>
    have hsp := lastNewlineIdx_spec l i hidx
    have hlen : i < l.length := by
      by_contra hge
      push_neg at hge
      rw [List.getElem?_eq_none hge] at hsp
      cases hsp.1
    rw [List.getLast?_eq_getElem?, List.length_take]
    have hmin : (i + 1) ⊓ l.length = i + 1 := min_eq_left (by omega)
    rw [hmin]
    rw [List.getElem?_take]
    simpa using hsp.1

/-- No line break survives after the kept prefix. -/
theorem drop_prevNewlineLen_no_newline (l : List Char) :
    '\n' ∉ l.drop (prevNewlineLen l) := by
  unfold prevNewlineLen
  cases hidx : lastNewlineIdx l with
  | none =>
    rw [List.drop_zero]
    exact (lastNewlineIdx_eq_none l).mp hidx
  | some i => exact (lastNewlineIdx_spec l i hidx).2

/-- Claim C1 as stated is false: on `use foo::bar; \n` the whitespace
token following the declaration is the text space-newline, whose substring
after its first line break is empty, so the claim demands the token be
deleted entirely; `ast::Use::remove` stages only the deletion of the
declaration itself (its guard asks the whitespace to begin with a line
break) and the whitespace token survives the edit unchanged. -/
theorem claim_C1_counterexample :
    afterFirstLineBreak (" \n") = ("") ∧
    Use.remove (childrenOf useFileC1) useDecl1 = [ .delete 2 ] ∧
    applyOps (Use.remove (childrenOf useFileC1) useDecl1) useFileC1 =
      .node 1 .SOURCE_FILE [.token 4 .WHITESPACE (" \n")] :=
  ⟨rfl, rfl, rfl⟩

/-- Claim C1 (amended): for every import declaration removal where the
sibling immediately following the declaration is a whitespace token, the
token is edited only when its text begins with a line break, and is then
truncated to the substring after that leading line break (replaced by it,
or deleted entirely when it is empty); when the text does not begin with a
line break the token is left untouched.  The successful guard means the
text is exactly a line break followed by the kept remainder, the recipe is
the next-side operations, then the previous-side operations, then the
deletion of the declaration itself, and on
`use foo::bar;\nuse baz::qux;\n`, removing the first declaration yields
`use baz::qux;\n` with no residual blank line. -/
theorem claim_C1_amended :
    (∀ siblings self nws,
      nextSiblingOrToken siblings (getId self) = some nws →
      isTokenOfKind .WHITESPACE nws = true →
      ((∀ rest, stripLeadingNewline (elText nws) = some rest →
         (rest = ("") → Use.nextWsOps siblings self = [ .delete (getId nws) ]) ∧
         (rest ≠ ("") → Use.nextWsOps siblings self =
            [ .replace (getId nws) (makeWhitespace rest) ])) ∧
       (stripLeadingNewline (elText nws) = none →
         Use.nextWsOps siblings self = []))) ∧
    (∀ s rest, stripLeadingNewline s = some rest →
      s.data = '\n' :: rest.data) ∧
    (∀ s, stripLeadingNewline s = none ↔ s.data.head? ≠ some '\n') ∧
    (∀ siblings self,
      Use.remove siblings self =
        Use.nextWsOps siblings self ++ Use.prevWsOps siblings self ++
          [ .delete (getId self) ]) ∧
    elText (applyOps (Use.remove (childrenOf useFile) useDecl1) useFile) =
      ("use baz::qux;\n") := by
  refine ⟨?_, ?_, ?_, fun siblings self => rfl, rfl⟩
  · intro siblings self nws h1 h2
    constructor
    · intro rest h3
      constructor
      · intro h4
        simp [Use.nextWsOps, h1, h2, h3, h4]
      · intro h4
        simp [Use.nextWsOps, h1, h2, h3, h4]
    · intro h3
      simp [Use.nextWsOps, h1, h2, h3]
  · intro s rest h
    cases s with
    | mk data =>
      cases data with
      | nil => cases h
      | cons c cs =>
        by_cases hc : c = '\n'
        · simp [stripLeadingNewline, hc] at h
          simp [← h, hc]
        · simp [stripLeadingNewline, hc] at h
  · intro s
    cases s with
    | mk data =>
      cases data with
      | nil => simp [stripLeadingNewline]
      | cons c cs =>
        by_cases hc : c = '\n'
        · simp [stripLeadingNewline, hc]
        · simp [stripLeadingNewline, hc]

/-- Witness for the amended claim C1 at the spec's example
`use foo::bar;\nuse baz::qux;\n`: the following whitespace is a bare line
break, so it is deleted entirely. -/
theorem claim_C1_witness :
    stripLeadingNewline (elText (SyntaxElement.token 4 .WHITESPACE ("\n"))) =
      some ("") ∧
    Use.nextWsOps (childrenOf useFile) useDecl1 = [ .delete 4 ] :=
  ⟨rfl,
   (((claim_C1_amended.1 (childrenOf useFile) useDecl1
        (SyntaxElement.token 4 .WHITESPACE ("\n")) rfl rfl).1 ("") rfl).1 rfl)⟩

/-- Claim C9: for every import declaration removal where the sibling
immediately preceding the declaration is a whitespace token, the token is
truncated to the substring up to and including its last line break (the
kept prefix ends with that line break and nothing after the cut is a line
break), and it is deleted entirely exactly when that substring is empty,
that is, when the whitespace contains no line break at all. -/
theorem claim_C9 :
    ∀ siblings self pws,
      prevSiblingOrToken siblings (getId self) = some pws →
      isTokenOfKind .WHITESPACE pws = true →
      (('\n' ∉ (elText pws).data →
         Use.prevWsOps siblings self = [ .delete (getId pws) ]) ∧
       ('\n' ∈ (elText pws).data →
         Use.prevWsOps siblings self =
           [ .replace (getId pws)
               (makeWhitespace (String.mk ((elText pws).data.take
                  (prevNewlineLen (elText pws).data)))) ] ∧
         ((elText pws).data.take
            (prevNewlineLen (elText pws).data)).getLast? = some '\n') ∧
       ('\n' ∉ ((elText pws).data.drop (prevNewlineLen (elText pws).data)) ∧
        (elText pws).data.take (prevNewlineLen (elText pws).data) ++
          (elText pws).data.drop (prevNewlineLen (elText pws).data) =
          (elText pws).data) ∧
       (String.mk ((elText pws).data.take (prevNewlineLen (elText pws).data)) =
          ("") ↔ '\n' ∉ (elText pws).data)) := by
  intro siblings self pws h1 h2
  have hempty : ∀ l : List Char,
      (String.mk (l.take (prevNewlineLen l)) = ("") ↔ '\n' ∉ l) := by
    intro l
    rw [String.ext_iff]
    show l.take (prevNewlineLen l) = ([] : List Char) ↔ _
    rw [List.take_eq_nil_iff]
    constructor
    · rintro (h | h)
      · exact (prevNewlineLen_eq_zero_iff l).mp h
      · rw [h]; simp
    · intro h
      exact Or.inl ((prevNewlineLen_eq_zero_iff l).mpr h)
  refine ⟨?_, ?_, ⟨drop_prevNewlineLen_no_newline _, List.take_append_drop _ _⟩,
    hempty _⟩
  · intro hno
    have hz := (hempty (elText pws).data).mpr hno
    simp [Use.prevWsOps, h1, h2, hz]
  · intro hmem
    have hz : ¬(String.mk ((elText pws).data.take
        (prevNewlineLen (elText pws).data)) = ("")) := by
      rw [hempty (elText pws).data]
      simpa using hmem
    refine ⟨?_, take_prevNewlineLen_getLast _ hmem⟩
    simp [Use.prevWsOps, h1, h2, hz]

/-- Witness for claim C9: a preceding whitespace of one newline and two
spaces is truncated to the bare newline, and a preceding all-space
whitespace is deleted. -/
theorem claim_C9_witness :
    ('\n' ∈ (elText (SyntaxElement.token 4 .WHITESPACE ("\n  "))).data ∧
     Use.prevWsOps
       [SyntaxElement.token 4 .WHITESPACE ("\n  "),
        SyntaxElement.node 2 .USE [SyntaxElement.token 3 .IDENT ("use a;")]]
       (SyntaxElement.node 2 .USE [SyntaxElement.token 3 .IDENT ("use a;")]) =
       [ .replace 4 (makeWhitespace ("\n")) ]) ∧
    ('\n' ∉ (elText (SyntaxElement.token 4 .WHITESPACE ("  "))).data ∧
     Use.prevWsOps
       [SyntaxElement.token 4 .WHITESPACE ("  "),
        SyntaxElement.node 2 .USE [SyntaxElement.token 3 .IDENT ("use a;")]]
       (SyntaxElement.node 2 .USE [SyntaxElement.token 3 .IDENT ("use a;")]) =
       [ .delete 4 ]) := by
  constructor
  · refine ⟨by decide, ?_⟩
    have h := ((claim_C9
      [SyntaxElement.token 4 .WHITESPACE ("\n  "),
       SyntaxElement.node 2 .USE [SyntaxElement.token 3 .IDENT ("use a;")]]
      (SyntaxElement.node 2 .USE [SyntaxElement.token 3 .IDENT ("use a;")])
      (SyntaxElement.token 4 .WHITESPACE ("\n  ")) rfl rfl).2.1 (by decide)).1
    simpa using h
  · refine ⟨by decide, ?_⟩
    exact (claim_C9
      [SyntaxElement.token 4 .WHITESPACE ("  "),
       SyntaxElement.node 2 .USE [SyntaxElement.token 3 .IDENT ("use a;")]]
      (SyntaxElement.node 2 .USE [SyntaxElement.token 3 .IDENT ("use a;")])
      (SyntaxElement.token 4 .WHITESPACE ("  ")) rfl rfl).1 (by decide)

/-! ### Sibling-walk helper lemmas for the grouped-import claim -/

/-- The sibling walk past an element whose identity occurs after a prefix
of distinct-identity siblings. -/
theorem siblingsAfterId_eq (pre : List SyntaxElement) (c : SyntaxElement)
    (rest : List SyntaxElement) (t : Nat) (hc : getId c = t)
    (hpre : ∀ e ∈ pre, getId e ≠ t) :
    siblingsAfterId (pre ++ c :: rest) t = rest := by
  induction pre with
  | nil => simp [siblingsAfterId, hc]
  | cons p ps ih =>
    have hp : getId p ≠ t := hpre p (by simp)
    rw [List.cons_append, siblingsAfterId, if_neg hp]
    exact ih (fun e he => hpre e (by simp [he]))

/-- A search that fails on a middle run finds the first hit after it. -/
theorem find?_middle (q : SyntaxElement → Bool) (mid : List SyntaxElement)
    (nb : SyntaxElement) (post : List SyntaxElement)
    (hmid : ∀ e ∈ mid, q e = false) (hnb : q nb = true) :
    (mid ++ nb :: post).find? q = some nb := by
  rw [List.find?_append]
  rw [List.find?_eq_none.mpr (fun x hx => by simp [hmid x hx])]
  rw [List.find?_cons_of_pos _ hnb]
  rfl

/-- A predicate true on a middle run and false at its end point makes
`takeWhile` return exactly the middle run. -/
theorem takeWhile_middle (p : SyntaxElement → Bool) (mid : List SyntaxElement)
    (nb : SyntaxElement) (post : List SyntaxElement)
    (hmid : ∀ e ∈ mid, p e = true) (hnb : p nb = false) :
    (mid ++ nb :: post).takeWhile p = mid := by
  induction mid with
  | nil => simp [List.takeWhile_cons, hnb]
  | cons m ms ih =>
    rw [List.cons_append, List.takeWhile_cons, hmid m (by simp)]
    rw [ih (fun e he => hmid e (by simp [he]))]
    simp

/-- A clause node is a node. -/
theorem isUseTreeNode_isNode (e : SyntaxElement)
    (h : isUseTreeNode e = true) : isNodeEl e = true := by
  cases e with
  | token i k s => simp [isUseTreeNode, isNodeOfKind] at h
  | node i k cs => simp [isNodeEl]

/-- Claim C6: for every removal of a clause inside a grouped import, the
next direction is searched first: when a neighboring clause exists there,
every sibling element strictly between the clause and that neighbor is
deleted and the previous direction is not consulted (the conclusion is
independent of the siblings before the clause); the previous direction is
used under the same rule only when no next neighbor exists; when neither
direction has a neighbor no separator is deleted; in every case the clause
itself is deleted last; and removing `b` from `use foo::\x7ba, b, c\x7d;`
yields `use foo::\x7ba, c\x7d;`. -/
theorem claim_C6 :
    (∀ pre mid post ut nb,
      (∀ e ∈ pre, getId e ≠ getId ut) →
      (∀ e ∈ mid, isUseTreeNode e = false) →
      isUseTreeNode nb = true →
      (∀ e ∈ mid, getId e ≠ getId nb) →
      UseTree.remove (pre ++ ut :: (mid ++ nb :: post)) ut =
        mid.map (fun e => EditOp.delete (getId e)) ++
          [ .delete (getId ut) ]) ∧
    (∀ pre nb mid ut post,
      (∀ e ∈ pre, getId e ≠ getId ut) →
      getId nb ≠ getId ut →
      (∀ e ∈ mid, getId e ≠ getId ut) →
      (∀ e ∈ post, getId e ≠ getId ut) →
      (∀ e ∈ post, isUseTreeNode e = false) →
      (∀ e ∈ mid, isUseTreeNode e = false) →
      isUseTreeNode nb = true →
      (∀ e ∈ mid, getId e ≠ getId nb) →
      UseTree.remove (pre ++ nb :: (mid ++ ut :: post)) ut =
        mid.reverse.map (fun e => EditOp.delete (getId e)) ++
          [ .delete (getId ut) ]) ∧
    (∀ pre post ut,
      (∀ e ∈ pre, getId e ≠ getId ut) →
      (∀ e ∈ post, getId e ≠ getId ut) →
      (∀ e ∈ pre, isUseTreeNode e = false) →
      (∀ e ∈ post, isUseTreeNode e = false) →
      UseTree.remove (pre ++ ut :: post) ut = [ .delete (getId ut) ]) ∧
    (∀ siblings ut,
      (UseTree.remove siblings ut).getLast? =
        some (.delete (getId ut))) ∧
    elText (applyOps (UseTree.remove utlChildren utB) useGrouped) =
      ("use foo::\x7ba, c\x7d;") := by
  have hpred : ∀ nb, isUseTreeNode nb = true →
      (fun it => !(isNodeEl it && getId it == getId nb)) nb = false := by
    intro nb hnb
    simp [isUseTreeNode_isNode nb hnb]
  refine ⟨?_, ?_, ?_, ?_, rfl⟩
  · intro pre mid post ut nb hpre hmid hnb hmidid
    have hwalk : siblingsInDir (pre ++ ut :: (mid ++ nb :: post))
        (getId ut) .next = mid ++ nb :: post :=
      siblingsAfterId_eq pre ut (mid ++ nb :: post) (getId ut) rfl hpre
    have hfind : neighbor (pre ++ ut :: (mid ++ nb :: post))
        (getId ut) .next = some nb := by
      rw [neighbor, hwalk]
      exact find?_middle _ mid nb post hmid hnb
    have htake : sepDeletes (mid ++ nb :: post) nb =
        mid.map (fun e => EditOp.delete (getId e)) := by
      rw [sepDeletes, takeWhile_middle _ mid nb post
        (fun e he => by simp [hmidid e he]) (hpred nb hnb)]
    rw [UseTree.remove, hfind, hwalk]
    simp [htake]
  · intro pre nb mid ut post hpre hnbid hmidid hpostid hpost hmid hnb hmidnb
    have hshape : pre ++ nb :: (mid ++ ut :: post) =
        (pre ++ nb :: mid) ++ ut :: post := by simp
    have hwalk : siblingsInDir (pre ++ nb :: (mid ++ ut :: post))
        (getId ut) .next = post := by
      show siblingsAfterId (pre ++ nb :: (mid ++ ut :: post)) (getId ut) = post
      rw [hshape]
      refine siblingsAfterId_eq _ ut post (getId ut) rfl ?_
      intro e he
      rcases List.mem_append.mp he with h | h
      · exact hpre e h
      · rcases List.mem_cons.mp h with rfl | h
        · exact hnbid
        · exact hmidid e h
    have hfindnext : neighbor (pre ++ nb :: (mid ++ ut :: post))
        (getId ut) .next = none := by
      rw [neighbor, hwalk]
      exact List.find?_eq_none.mpr (fun x hx => by simp [hpost x hx])
    have hrevshape : (pre ++ nb :: (mid ++ ut :: post)).reverse =
        post.reverse ++ ut :: (mid.reverse ++ nb :: pre.reverse) := by
      simp
    have hwalkprev : siblingsInDir (pre ++ nb :: (mid ++ ut :: post))
        (getId ut) .prev = mid.reverse ++ nb :: pre.reverse := by
      show siblingsAfterId (pre ++ nb :: (mid ++ ut :: post)).reverse
        (getId ut) = _
      rw [hrevshape]
      refine siblingsAfterId_eq _ ut _ (getId ut) rfl ?_
      intro e he
      exact hpostid e (List.mem_reverse.mp he)
    have hfindprev : neighbor (pre ++ nb :: (mid ++ ut :: post))
        (getId ut) .prev = some nb := by
      rw [neighbor, hwalkprev]
      exact find?_middle _ mid.reverse nb pre.reverse
        (fun e he => hmid e (List.mem_reverse.mp he)) hnb
    have htake : sepDeletes (mid.reverse ++ nb :: pre.reverse) nb =
        mid.reverse.map (fun e => EditOp.delete (getId e)) := by
      rw [sepDeletes, takeWhile_middle _ mid.reverse nb pre.reverse
        (fun e he => by simp [hmidnb e (List.mem_reverse.mp he)])
        (hpred nb hnb)]
    rw [UseTree.remove, hfindnext, hfindprev, hwalkprev]
    simp [htake]
  · intro pre post ut hpre hpost hpreut hpostut
    have hwalk : siblingsInDir (pre ++ ut :: post) (getId ut) .next = post :=
      siblingsAfterId_eq pre ut post (getId ut) rfl hpre
    have hfindnext : neighbor (pre ++ ut :: post) (getId ut) .next = none := by
      rw [neighbor, hwalk]
      exact List.find?_eq_none.mpr (fun x hx => by simp [hpostut x hx])
    have hrevshape : (pre ++ ut :: post).reverse =
        post.reverse ++ ut :: pre.reverse := by simp
    have hwalkprev : siblingsInDir (pre ++ ut :: post) (getId ut) .prev =
        pre.reverse := by
      show siblingsAfterId (pre ++ ut :: post).reverse (getId ut) = _
      rw [hrevshape]
      refine siblingsAfterId_eq _ ut _ (getId ut) rfl ?_
      intro e he
      exact hpost e (List.mem_reverse.mp he)
    have hfindprev : neighbor (pre ++ ut :: post) (getId ut) .prev = none := by
      rw [neighbor, hwalkprev]
      refine List.find?_eq_none.mpr ?_
      intro x hx
      simp [hpreut x (List.mem_reverse.mp hx)]
    rw [UseTree.remove, hfindnext, hfindprev]
    rfl
  · intro siblings ut
    unfold UseTree.remove
    exact List.getLast?_concat _

/-- Witness for claim C6 at the spec's example: removing `b` from
`use foo::\x7ba, b, c\x7d;` deletes exactly the separator and the space
between `b` and `c`, then `b` itself. -/
theorem claim_C6_witness :
    isUseTreeNode utC = true ∧
    UseTree.remove utlChildren utB =
      [ .delete 12, .delete 13, .delete 10 ] := by
  refine ⟨by decide, ?_⟩
  have h := claim_C6.1
    [SyntaxElement.token 5 .L_CURLY ("\x7b"), utA,
     SyntaxElement.token 8 .COMMA (","), SyntaxElement.token 9 .WHITESPACE (" ")]
    [SyntaxElement.token 12 .COMMA (","), SyntaxElement.token 13 .WHITESPACE (" ")]
    [SyntaxElement.token 16 .R_CURLY ("\x7d")]
    utB utC (by decide) (by decide) (by decide) (by decide)
  simpa [utlChildren] using h

/-! ### Fresh-copy helper lemmas for the Builder Facility claims -/

/-- Fresh copies shift the identity by the allocation offset. -/
theorem getId_clone (off : Nat) (e : SyntaxElement) :
    getId (clone_for_update off e) = getId e + off := by
  cases e <;> rfl

/-- Fresh copies keep the kind-of-node test. -/
theorem isNodeOfKind_clone (k : SyntaxKind) (off : Nat) (e : SyntaxElement) :
    isNodeOfKind k (clone_for_update off e) = isNodeOfKind k e := by
  cases e <;> rfl

/-- Fresh copies keep nodehood. -/
theorem isNodeEl_clone (off : Nat) (e : SyntaxElement) :
    isNodeEl (clone_for_update off e) = isNodeEl e := by
  cases e <;> rfl

/-- Fresh copies keep the statement test. -/
theorem isStmtNode_clone (off : Nat) (e : SyntaxElement) :
    isStmtNode (clone_for_update off e) = isStmtNode e := by
  cases e <;> rfl

/-- Fresh copies keep the expression test. -/
theorem isExprNode_clone (off : Nat) (e : SyntaxElement) :
    isExprNode (clone_for_update off e) = isExprNode e := by
  cases e <;> rfl

/-- Fresh copies keep the generic-argument test. -/
theorem isGenericArgNode_clone (off : Nat) (e : SyntaxElement) :
    isGenericArgNode (clone_for_update off e) = isGenericArgNode e := by
  cases e <;> rfl

/-- Fresh copies distribute over append. -/
theorem cloneList_append (off : Nat) (a b : List SyntaxElement) :
    cloneList off (a ++ b) = cloneList off a ++ cloneList off b := by
  induction a with
  | nil => rfl
  | cons x xs ih => simp [cloneList, ih]

/-- Fresh copies keep the list length. -/
theorem length_cloneList (off : Nat) (l : List SyntaxElement) :
    (cloneList off l).length = l.length := by
  induction l with
  | nil => rfl
  | cons x xs ih => simp [cloneList, ih]

/-- Filtering by a copy-invariant predicate commutes with fresh copying. -/
theorem filter_cloneList (p : SyntaxElement → Bool) (off : Nat)
    (l : List SyntaxElement)
    (h : ∀ e, p (clone_for_update off e) = p e) :
    (cloneList off l).filter p = cloneList off (l.filter p) := by
  induction l with
  | nil => rfl
  | cons x xs ih =>
    by_cases hx : p x = true
    · simp [cloneList, List.filter_cons, h, hx, ih]
    · simp [cloneList, List.filter_cons, h, hx, ih]

/-- Searching by a copy-invariant predicate commutes with fresh copying. -/
theorem find?_cloneList (p : SyntaxElement → Bool) (off : Nat)
    (l : List SyntaxElement)
    (h : ∀ e, p (clone_for_update off e) = p e) :
    (cloneList off l).find? p = (l.find? p).map (clone_for_update off) := by
  induction l with
  | nil => rfl
  | cons x xs ih =>
    by_cases hx : p x = true
    · rw [cloneList, List.find?_cons_of_pos _ (by rw [h]; exact hx),
        List.find?_cons_of_pos _ hx]
      rfl
    · rw [cloneList, List.find?_cons_of_neg _ (by rw [h]; exact hx),
        List.find?_cons_of_neg _ hx, ih]

/-- Identities of a freshly copied list are the shifted input identities. -/
theorem map_getId_cloneList (off : Nat) (l : List SyntaxElement) :
    (cloneList off l).map getId = l.map (fun e => getId e + off) := by
  induction l with
  | nil => rfl
  | cons x xs ih => simp [cloneList, getId_clone, ih]

/-- An expression node is not a statement node. -/
theorem isExprNode_not_stmt (e : SyntaxElement) (h : isExprNode e = true) :
    isStmtNode e = false := by
  cases e with
  | token i k s => rfl
  | node i k cs =>
    cases k <;> simp [isExprNode, isStmtNode, isNodeOfKind] at h ⊢

/-- A statement node is not an expression node. -/
theorem isStmtNode_not_expr (e : SyntaxElement) (h : isStmtNode e = true) :
    isExprNode e = false := by
  cases e with
  | token i k s => rfl
  | node i k cs =>
    cases k <;> simp [isExprNode, isStmtNode, isNodeOfKind] at h ⊢

/-- The `only_nodes` projection keeps exactly the node elements. -/
theorem filterMap_only_nodes (l : List SyntaxElement) :
    l.filterMap only_nodes = l.filter isNodeEl := by
  induction l with
  | nil => rfl
  | cons x xs ih =>
    by_cases hx : isNodeEl x = true
    · simp [List.filterMap_cons, List.filter_cons, only_nodes, hx, ih]
    · simp [List.filterMap_cons, List.filter_cons, only_nodes, hx, ih]

/-- The comma-and-space joiner adds no generic-argument nodes and keeps the
arguments in order. -/
theorem filter_commaSeparated (args : List SyntaxElement)
    (h : ∀ e ∈ args, isGenericArgNode e = true) :
    (commaSeparated args).filter isGenericArgNode = args := by
  induction args with
  | nil => rfl
  | cons x xs ih =>
    cases xs with
    | nil => simp [commaSeparated, List.filter_cons, h x (by simp)]
    | cons y ys =>
      rw [commaSeparated]
      rw [List.filter_cons, List.filter_cons, List.filter_cons]
      rw [h x (by simp)]
      rw [ih (fun e he => h e (by simp [he]))]
      simp [isGenericArgNode, isNodeOfKind]
      exact fun hco => List.noConfusion hco

/-- A token never passes a node-kind test. -/
theorem isNodeOfKind_token (k : SyntaxKind) (i : Nat) (k2 : SyntaxKind)
    (s : String) : isNodeOfKind k (SyntaxElement.token i k2 s) = false := rfl

/-- Claim C2 as stated is false: with a Recording Context active, the
identifier constructor `name` and the type-reference constructor `ty`
register zero pairs, not exactly one — they build from raw text and carry
no mapping block at all. -/
theorem claim_C2_counterexample :
    (SyntaxFactory.name facRec 100 ("x")).2 = [] ∧
    ((SyntaxFactory.name facRec 100 ("x")).2.length = 1 → False) ∧
    (SyntaxFactory.ty facRec 100 ("i32")).2 = [] ∧
    ((SyntaxFactory.ty facRec 100 ("i32")).2.length = 1 → False) :=
  ⟨rfl, by decide, rfl, by decide⟩

/-- Claim C2 (amended): with a Recording Context active, the
binding-pattern constructor `ident_pat` registers exactly one pair — its
supplied name against the name slot of the fresh output — while the
identifier constructor `name` and the type-reference constructor `ty`,
which build from raw text and take no input subtree, register zero pairs
(with or without a Recording Context). -/
theorem claim_C2_amended :
    (∀ f m off ref_ mut_ name,
      SyntaxFactory.mappings f = some m →
      isNodeOfKind .NAME name = true →
      (SyntaxFactory.ident_pat f off ref_ mut_ name).2 =
        [(getId name, getId name + off)]) ∧
    (∀ f off s, (SyntaxFactory.name f off s).2 = []) ∧
    (∀ f off s, (SyntaxFactory.ty f off s).2 = []) := by
  refine ⟨?_, fun f off s => rfl, fun f off s => rfl⟩
  intro f m off ref_ mut_ name hm hname
  have hcl : isNodeOfKind .NAME (clone_for_update off name) = true := by
    rw [isNodeOfKind_clone]
    exact hname
  cases ref_ <;> cases mut_ <;>
    simp [SyntaxFactory.ident_pat, makeIdentPat, hm, clone_for_update,
      cloneList, nameOf, firstChildNodeOfKind, childrenOf, List.find?_cons,
      isNodeOfKind_token, hcl, unwrapId, getId_clone,
      SyntaxMappingBuilder.new, SyntaxMappingBuilder.map_node]

/-- Witness for the amended claim C2: a recording `ident_pat` call on the
name node `foo` (identity 4) with allocation offset 100 registers exactly
the pair from 4 to 104. -/
theorem claim_C2_witness :
    SyntaxFactory.mappings facRec = some ⟨[]⟩ ∧
    (SyntaxFactory.ident_pat facRec 100 false false nameFoo).2 = [(4, 104)] := by
  refine ⟨rfl, ?_⟩
  have h := claim_C2_amended.1 facRec ⟨[]⟩ 100 false false nameFoo rfl rfl
  simpa [nameFoo, getId] using h

/-! ### Shape lemmas for the multi-child constructors -/

/-- A token is never a statement node. -/
theorem isStmtNode_token (i : Nat) (k : SyntaxKind) (s : String) :
    isStmtNode (SyntaxElement.token i k s) = false := rfl

/-- A token is never an expression node. -/
theorem isExprNode_token (i : Nat) (k : SyntaxKind) (s : String) :
    isExprNode (SyntaxElement.token i k s) = false := rfl

/-- A token is never a generic-argument node. -/
theorem isGenericArgNode_token (i : Nat) (k : SyntaxKind) (s : String) :
    isGenericArgNode (SyntaxElement.token i k s) = false := rfl

/-- A token is not a node. -/
theorem isNodeEl_token (i : Nat) (k : SyntaxKind) (s : String) :
    isNodeEl (SyntaxElement.token i k s) = false := rfl

/-- The built block's statement-list slot. -/
theorem stmt_list_of_block (off : Nat) (stmts : List SyntaxElement)
    (tail : Option SyntaxElement) :
    BlockExpr.stmt_list (clone_for_update off (makeBlockExpr stmts tail)) =
      some (.node (2 + off) .STMT_LIST (cloneList off (blockInner stmts tail))) := by
  simp [makeBlockExpr, clone_for_update, cloneList, BlockExpr.stmt_list,
    firstChildNodeOfKind, childrenOf, List.find?_cons, isNodeOfKind]

/-- The statements of the built statement list are exactly the fresh copies
of the supplied statements, in order. -/
theorem statements_of_block (off : Nat) (stmts : List SyntaxElement)
    (tail : Option SyntaxElement)
    (hstmts : ∀ e ∈ stmts, isStmtNode e = true)
    (htail : ∀ e, tail = some e → isExprNode e = true) :
    StmtList.statements
        (.node (2 + off) .STMT_LIST (cloneList off (blockInner stmts tail))) =
      cloneList off stmts := by
  show (cloneList off (blockInner stmts tail)).filter isStmtNode = _
  rw [filter_cloneList _ _ _ (isStmtNode_clone off)]
  congr 1
  rw [blockInner, List.filter_append, List.filter_append, List.filter_append,
    List.filter_eq_self.mpr hstmts]
  cases tail with
  | none => simp [isStmtNode_token]
  | some te =>
    have hte : isStmtNode te = false := isExprNode_not_stmt te (htail te rfl)
    simp [isStmtNode_token, hte]

/-- The trailing-expression slot of the built statement list is the fresh
copy of the supplied trailing expression, when there is one. -/
theorem tail_expr_of_block (off : Nat) (stmts : List SyntaxElement)
    (tail : Option SyntaxElement)
    (hstmts : ∀ e ∈ stmts, isStmtNode e = true)
    (htail : ∀ e, tail = some e → isExprNode e = true) :
    StmtList.tail_expr
        (.node (2 + off) .STMT_LIST (cloneList off (blockInner stmts tail))) =
      tail.map (clone_for_update off) := by
  show (cloneList off (blockInner stmts tail)).find? isExprNode = _
  rw [find?_cloneList _ _ _ (isExprNode_clone off)]
  have hfind : (blockInner stmts tail).find? isExprNode = tail := by
    rw [blockInner, List.find?_append, List.find?_append, List.find?_append]
    have h2 : List.find? isExprNode stmts = none :=
      List.find?_eq_none.mpr
        (fun x hx => by simp [isStmtNode_not_expr x (hstmts x hx)])
    cases tail with
    | none => simp [h2, List.find?_cons, isExprNode_token]
    | some te =>
      simp [h2, List.find?_cons, isExprNode_token, htail te rfl]
  rw [hfind]

/-- The generic arguments of the built turbofish list are exactly the fresh
copies of the supplied arguments, in order. -/
theorem generic_args_of_turbofish (off : Nat) (args : List SyntaxElement)
    (hargs : ∀ e ∈ args, isGenericArgNode e = true) :
    GenericArgList.generic_args
        (clone_for_update off (makeTurbofishGenericArgList args)) =
      cloneList off args := by
  show (childrenOf _).filter isGenericArgNode = _
  simp only [makeTurbofishGenericArgList, clone_for_update, childrenOf]
  rw [filter_cloneList _ _ _ (isGenericArgNode_clone off)]
  congr 1
  rw [List.filter_append, List.filter_append,
    filter_commaSeparated args hargs]
  simp [isGenericArgNode_token]

/-- The node elements of the built token group are exactly the fresh copies
of the supplied node elements, in order; the delimiters and the supplied
tokens are filtered out. -/
theorem nodes_of_token_tree (off : Nat) (delim : SyntaxKind)
    (tt : List SyntaxElement) :
    (TokenTree.token_trees_and_tokens
        (clone_for_update off (makeTokenTree delim tt))).filterMap only_nodes =
      cloneList off (tt.filter isNodeEl) := by
  show (childrenOf _).filterMap only_nodes = _
  simp only [makeTokenTree, clone_for_update, childrenOf]
  rw [filterMap_only_nodes]
  rw [filter_cloneList _ _ _ (isNodeEl_clone off)]
  congr 1
  rw [List.filter_append, List.filter_append]
  simp [isNodeEl_token]

/-- Claim C4: every multi-child constructor call with a Recording Context
active registers a positional pairing across the full input element
sequence and the full output element sequence (for the block body, the
statement sequences; for the turbofish list, the argument sequences; for
the delimited token group, the tree-valued element sequences — token
leaves carry no node identity to map), and for the block body the optional
trailing expression is additionally registered as a pair exactly when both
the input and the output have one: here the output has one exactly when
the input does, and the pairing covers both sequences entirely (equal
lengths, output identities the fresh copies of the input identities in
order). -/
theorem claim_C4 :
    (∀ f m off stmts tail,
      SyntaxFactory.mappings f = some m →
      (∀ e ∈ stmts, isStmtNode e = true) →
      (∀ e, tail = some e → isExprNode e = true) →
      ((SyntaxFactory.block_expr f off stmts tail).2 =
          (stmts.map getId).zip (stmts.map (fun e => getId e + off)) ++
            (match tail with
             | some e => [(getId e, getId e + off)]
             | none => []) ∧
        ∃ sl, BlockExpr.stmt_list (SyntaxFactory.block_expr f off stmts tail).1 =
            some sl ∧
          (StmtList.statements sl).map getId =
            stmts.map (fun e => getId e + off) ∧
          (StmtList.statements sl).length = stmts.length ∧
          StmtList.tail_expr sl = tail.map (clone_for_update off))) ∧
    (∀ f m off args,
      SyntaxFactory.mappings f = some m →
      (∀ e ∈ args, isGenericArgNode e = true) →
      ((SyntaxFactory.turbofish_generic_arg_list f off args).2 =
          (args.map getId).zip (args.map (fun e => getId e + off)) ∧
        (GenericArgList.generic_args
            (SyntaxFactory.turbofish_generic_arg_list f off args).1).map getId =
          args.map (fun e => getId e + off) ∧
        (GenericArgList.generic_args
            (SyntaxFactory.turbofish_generic_arg_list f off args).1).length =
          args.length)) ∧
    (∀ f m off delim tt,
      SyntaxFactory.mappings f = some m →
      ((SyntaxFactory.token_tree f off delim tt).2 =
          ((tt.filterMap only_nodes).map getId).zip
            ((tt.filterMap only_nodes).map (fun e => getId e + off)) ∧
        ((TokenTree.token_trees_and_tokens
            (SyntaxFactory.token_tree f off delim tt).1).filterMap
              only_nodes).map getId =
          ((tt.filterMap only_nodes).map getId).map (fun i => i + off) ∧
        ((TokenTree.token_trees_and_tokens
            (SyntaxFactory.token_tree f off delim tt).1).filterMap
              only_nodes).length = (tt.filterMap only_nodes).length)) := by
  refine ⟨?_, ?_, ?_⟩
  · intro f m off stmts tail hm hstmts htail
    have hsl := stmt_list_of_block off stmts tail
    have hstm := statements_of_block off stmts tail hstmts htail
    have hte := tail_expr_of_block off stmts tail hstmts htail
    constructor
    · simp only [SyntaxFactory.block_expr, hm, hsl]
      simp only [SyntaxMappingBuilder.new, SyntaxMappingBuilder.map_children,
        SyntaxMappingBuilder.map_node, hstm, hte, map_getId_cloneList]
      cases tail with
      | none => simp
      | some te => simp [getId_clone]
    · refine ⟨.node (2 + off) .STMT_LIST (cloneList off (blockInner stmts tail)),
        ?_, ?_, ?_, ?_⟩
      · have hast1 : (SyntaxFactory.block_expr f off stmts tail).1 =
            clone_for_update off (makeBlockExpr stmts tail) := by
          simp only [SyntaxFactory.block_expr, hm, hsl]
        rw [hast1, hsl]
      · rw [hstm, map_getId_cloneList]
      · rw [hstm, length_cloneList]
      · exact hte
  · intro f m off args hm hargs
    have hga := generic_args_of_turbofish off args hargs
    have hast1 : (SyntaxFactory.turbofish_generic_arg_list f off args).1 =
        clone_for_update off (makeTurbofishGenericArgList args) := by
      simp only [SyntaxFactory.turbofish_generic_arg_list, hm]
    refine ⟨?_, ?_, ?_⟩
    · simp only [SyntaxFactory.turbofish_generic_arg_list, hm,
        SyntaxMappingBuilder.new, SyntaxMappingBuilder.map_children, hga,
        map_getId_cloneList]
      simp
    · rw [hast1, hga, map_getId_cloneList]
    · rw [hast1, hga, length_cloneList]
  · intro f m off delim tt hm
    have htts := nodes_of_token_tree off delim tt
    have hinput : tt.filterMap only_nodes = tt.filter isNodeEl :=
      filterMap_only_nodes tt
    have hast1 : (SyntaxFactory.token_tree f off delim tt).1 =
        clone_for_update off (makeTokenTree delim tt) := by
      simp only [SyntaxFactory.token_tree, hm]
    refine ⟨?_, ?_, ?_⟩
    · simp only [SyntaxFactory.token_tree, hm, SyntaxMappingBuilder.new,
        SyntaxMappingBuilder.map_children, hinput, htts, map_getId_cloneList]
      simp
    · rw [hast1, htts, hinput, map_getId_cloneList, List.map_map]
      rfl
    · rw [hast1, htts, hinput, length_cloneList]

/-- Witness for claim C4 at concrete calls with allocation offset 200: the
block body pairs statement 50 with its copy 250 and trailing expression 52
with 252; the turbofish list pairs argument 54 with 254; the token group
pairs its single node element 57 with 257, skipping the token element. -/
theorem claim_C4_witness :
    (SyntaxFactory.block_expr facRec 200 [stmtEx] (some tailEx)).2 =
      [(50, 250), (52, 252)] ∧
    (SyntaxFactory.turbofish_generic_arg_list facRec 200 [targEx]).2 =
      [(54, 254)] ∧
    (SyntaxFactory.token_tree facRec 200 .L_PAREN [ttTokEx, ttNodeEx]).2 =
      [(57, 257)] := by
  refine ⟨?_, ?_, ?_⟩
  · have h := (claim_C4.1 facRec ⟨[]⟩ 200 [stmtEx] (some tailEx) rfl
      (by decide) (fun e he => by cases he; decide)).1
    simpa [stmtEx, tailEx, getId] using h
  · have h := (claim_C4.2.1 facRec ⟨[]⟩ 200 [targEx] rfl (by decide)).1
    simpa [targEx, getId] using h
  · have h := (claim_C4.2.2 facRec ⟨[]⟩ 200 .L_PAREN [ttTokEx, ttNodeEx] rfl).1
    simpa [ttTokEx, ttNodeEx, only_nodes, isNodeEl, getId] using h

/-- Claim C8: every constructor call of the Builder Facility made without
a Recording Context records zero mapping entries — the pair list the call
would flush into the Mapping Store is empty, so the store is unchanged —
while the same fragment is still built and returned as with a Recording
Context active (factory `g`), for every constructor of constructors.rs. -/
theorem claim_C8 :
    ∀ (f g : SyntaxFactory) (m2 : SyntaxMapping),
      SyntaxFactory.mappings f = none →
      SyntaxFactory.mappings g = some m2 →
      ∀ (off : Nat) (s t wtext op : String) (k delim : SyntaxKind)
        (nm lhs rhs path expr pattern : SyntaxElement)
        (bounds ty0 init tail : Option SyntaxElement)
        (ref_ mut_ excl : Bool)
        (stmts args tt : List SyntaxElement),
      ((SyntaxFactory.name f off s).2 = [] ∧
        (SyntaxFactory.name f off s).1 = (SyntaxFactory.name g off s).1) ∧
      ((SyntaxFactory.ty f off t).2 = [] ∧
        (SyntaxFactory.ty f off t).1 = (SyntaxFactory.ty g off t).1) ∧
      ((SyntaxFactory.type_param f off nm bounds).2 = [] ∧
        (SyntaxFactory.type_param f off nm bounds).1 =
          (SyntaxFactory.type_param g off nm bounds).1) ∧
      ((SyntaxFactory.whitespace f wtext).2 = [] ∧
        (SyntaxFactory.whitespace f wtext).1 =
          (SyntaxFactory.whitespace g wtext).1) ∧
      ((SyntaxFactory.ident_pat f off ref_ mut_ nm).2 = [] ∧
        (SyntaxFactory.ident_pat f off ref_ mut_ nm).1 =
          (SyntaxFactory.ident_pat g off ref_ mut_ nm).1) ∧
      ((SyntaxFactory.block_expr f off stmts tail).2 = [] ∧
        (SyntaxFactory.block_expr f off stmts tail).1 =
          (SyntaxFactory.block_expr g off stmts tail).1) ∧
      ((SyntaxFactory.expr_bin f off lhs op rhs).2 = [] ∧
        (SyntaxFactory.expr_bin f off lhs op rhs).1 =
          (SyntaxFactory.expr_bin g off lhs op rhs).1) ∧
      ((SyntaxFactory.expr_path f off path).2 = [] ∧
        (SyntaxFactory.expr_path f off path).1 =
          (SyntaxFactory.expr_path g off path).1) ∧
      ((SyntaxFactory.expr_ref f off expr excl).2 = [] ∧
        (SyntaxFactory.expr_ref f off expr excl).1 =
          (SyntaxFactory.expr_ref g off expr excl).1) ∧
      ((SyntaxFactory.let_stmt f off pattern ty0 init).2 = [] ∧
        (SyntaxFactory.let_stmt f off pattern ty0 init).1 =
          (SyntaxFactory.let_stmt g off pattern ty0 init).1) ∧
      ((SyntaxFactory.turbofish_generic_arg_list f off args).2 = [] ∧
        (SyntaxFactory.turbofish_generic_arg_list f off args).1 =
          (SyntaxFactory.turbofish_generic_arg_list g off args).1) ∧
      ((SyntaxFactory.token_tree f off delim tt).2 = [] ∧
        (SyntaxFactory.token_tree f off delim tt).1 =
          (SyntaxFactory.token_tree g off delim tt).1) ∧
      ((SyntaxFactory.token f k).2 = [] ∧
        (SyntaxFactory.token f k).1 = (SyntaxFactory.token g k).1) := by
  intro f g m2 hf hg off s t wtext op k delim nm lhs rhs path expr pattern
    bounds ty0 init tail ref_ mut_ excl stmts args tt
  refine ⟨⟨rfl, rfl⟩, ⟨rfl, rfl⟩, ?_, ⟨rfl, rfl⟩, ?_, ?_, ?_, ?_, ?_, ?_,
    ?_, ?_, ⟨rfl, rfl⟩⟩
  · exact ⟨by simp [SyntaxFactory.type_param, hf],
      by simp [SyntaxFactory.type_param, hf, hg]⟩
  · exact ⟨by simp [SyntaxFactory.ident_pat, hf],
      by simp [SyntaxFactory.ident_pat, hf, hg]⟩
  · exact ⟨by simp [SyntaxFactory.block_expr, hf, stmt_list_of_block],
      by simp [SyntaxFactory.block_expr, hf, hg, stmt_list_of_block]⟩
  · exact ⟨by simp [SyntaxFactory.expr_bin, hf],
      by simp [SyntaxFactory.expr_bin, hf, hg]⟩
  · exact ⟨by simp [SyntaxFactory.expr_path, hf],
      by simp [SyntaxFactory.expr_path, hf, hg]⟩
  · exact ⟨by simp [SyntaxFactory.expr_ref, hf],
      by simp [SyntaxFactory.expr_ref, hf, hg]⟩
  · exact ⟨by simp [SyntaxFactory.let_stmt, hf],
      by simp [SyntaxFactory.let_stmt, hf, hg]⟩
  · exact ⟨by simp [SyntaxFactory.turbofish_generic_arg_list, hf],
      by simp [SyntaxFactory.turbofish_generic_arg_list, hf, hg]⟩
  · exact ⟨by simp [SyntaxFactory.token_tree, hf],
      by simp [SyntaxFactory.token_tree, hf, hg]⟩

/-- Witness for claim C8: with recording inactive, the same concrete calls
that record pairs under an active Recording Context record nothing, and
build the same fragments. -/
theorem claim_C8_witness :
    SyntaxFactory.mappings facOff = none ∧
    (SyntaxFactory.block_expr facOff 200 [stmtEx] (some tailEx)).2 = [] ∧
    (SyntaxFactory.block_expr facOff 200 [stmtEx] (some tailEx)).1 =
      (SyntaxFactory.block_expr facRec 200 [stmtEx] (some tailEx)).1 ∧
    (SyntaxFactory.ident_pat facOff 100 false false nameFoo).2 = [] ∧
    (SyntaxFactory.token_tree facOff 200 .L_PAREN [ttTokEx, ttNodeEx]).2 = [] := by
  have h := claim_C8 facOff facRec ⟨[]⟩ rfl rfl 200 ("x") ("i32") (" ") ("+")
    .COMMA .L_PAREN nameFoo nameFoo nameFoo nameFoo nameFoo nameFoo
    none none none (some tailEx) false false false [stmtEx] [targEx]
    [ttTokEx, ttNodeEx]
  refine ⟨rfl, h.2.2.2.2.2.1.1, h.2.2.2.2.2.1.2, ?_, ?_⟩
  · exact (claim_C8 facOff facRec ⟨[]⟩ rfl rfl 100 ("x") ("i32") (" ") ("+")
      .COMMA .L_PAREN nameFoo nameFoo nameFoo nameFoo nameFoo nameFoo
      none none none none false false false [] [] []).2.2.2.2.1.1
  · exact h.2.2.2.2.2.2.2.2.2.2.2.1.1

end SynEd
